import Mathlib

/-!
Verification of the ingestion/normalization/caching core of the
where-is-51b repository (backend TypeScript sources), via a shallow
embedding in Lean 4.

Conventions of the embedding:
* JavaScript runtime values that the cache can hold are modelled by the
  inductive `JSValue`; finite JS numbers are modelled by `Int` (the
  claims under study never depend on fractional magnitudes, only on
  presence, finiteness and sign), while possibly non-finite JS numbers
  are modelled by `JSNum`.
* Absolute instants (JS `Date`, `Date.now()`) are modelled by their
  epoch-millisecond value, an `Int`; impure reads of the current time
  become explicit `now` parameters.
* JS `Map` objects are modelled as insertion-ordered association lists
  (`List (String × _)`), with `Map.set` replacing in place.
* Fallible operations return `Option`/`Except`; code paths that fall
  back to "the current time" return `none` for the fallback.
* External HTTP responses, the process-local timezone offset and the
  IANA timezone database are inputs of the functions that consult them,
  passed as explicit parameters.
-/

/-! ## JavaScript helper semantics -/

/-- JS numbers as relevant to the transit code: a finite value (modelled
by an integer), `NaN`, or a signed infinity. -/
inductive JSNum where
  | num (n : Int)
  | nan
  | posInf
  | negInf
  deriving DecidableEq, Inhabited

/-- `Number.isFinite` on a `JSNum`. -/
def JSNum.isFinite : JSNum → Bool
  | .num _ => true
  | _ => false

/-- JS truthiness of a number: `0` and `NaN` are falsy. -/
def JSNum.truthy : JSNum → Bool
  | .num n => n ≠ 0
  | .nan => false
  | .posInf => true
  | .negInf => true

/-- JS truthiness of an optional string: `undefined`, `null` and the
empty string are falsy. -/
def jsTruthyStr : Option String → Bool
  | none => false
  | some s => s ≠ ""

/-- JS `a || b` on optional strings: returns `a` when truthy, else `b`. -/
def jsOrStr (a b : Option String) : Option String :=
  if jsTruthyStr a then a else b

/-- JS `a ?? b` (nullish coalescing) on options. -/
def jsNullish {α : Type} (a b : Option α) : Option α :=
  match a with
  | some x => some x
  | none => b

/-- Accumulate the leading decimal digits of a character list, as
`Number.parseInt` does after sign handling; `none` when the first
character is not a digit. -/
def jsDigitsAux : List Char → Option Nat → Option Nat
  | [], acc => acc
  | c :: rest, acc =>
      if c.isDigit then
        jsDigitsAux rest (some ((acc.getD 0) * 10 + (c.toNat - 48)))
      else
        acc

/-- `Number.parseInt(s, 10)`: skip leading spaces, read an optional
sign, then the longest prefix of decimal digits; `none` models `NaN`. -/
def jsParseInt (s : String) : Option Int :=
  let cs := s.data.dropWhile (fun c => c = ' ' ∨ c = '\t' ∨ c = '\n' ∨ c = '\r')
  match cs with
  | '-' :: rest => (jsDigitsAux rest none).map (fun n => -(n : Int))
  | '+' :: rest => (jsDigitsAux rest none).map (fun n => (n : Int))
  | _ => (jsDigitsAux cs none).map (fun n => (n : Int))

/-- `s.substring(a, b)` for ASCII strings, by code units. -/
def jsSubstring (s : String) (a b : Nat) : String :=
  ⟨(s.data.drop a).take (b - a)⟩

/-- Split a character list at every occurrence of the separator
character (JS `String.prototype.split` with a one-character separator:
empty fields are kept). -/
def jsSplitAux (sep : Char) : List Char → List Char → List (List Char)
  | [], acc => [acc.reverse]
  | c :: rest, acc =>
      if c = sep then acc.reverse :: jsSplitAux sep rest []
      else jsSplitAux sep rest (c :: acc)

/-- JS `s.split(sep)` for a one-character separator. -/
def jsSplit (s : String) (sep : Char) : List String :=
  (jsSplitAux sep s.data []).map (fun cs => ⟨cs⟩)

/-- JS string length (code units; the embedded strings are ASCII). -/
def jsLength (s : String) : Nat := s.data.length

/-- ASCII whitespace for the embedded trim. -/
def isJsSpace (c : Char) : Bool := c = ' ' ∨ c = '\t' ∨ c = '\n' ∨ c = '\r'

/-- JS `s.trim()` for the ASCII strings of the embedded feeds. -/
def jsTrim (s : String) : String :=
  ⟨((s.data.dropWhile isJsSpace).reverse.dropWhile isJsSpace).reverse⟩

/-- ASCII lowercasing of one character. -/
def charToLower (c : Char) : Char :=
  if 65 ≤ c.toNat ∧ c.toNat ≤ 90 then Char.ofNat (c.toNat + 32) else c

/-- JS `s.toLowerCase()` for the ASCII strings of the embedded feeds. -/
def jsToLowerCase (s : String) : String := ⟨s.data.map charToLower⟩

/-! ## HybridCache (backend/src/utils/cache.ts)

`JSValue` models the runtime values passed to `HybridCache.set`.  Keys
and values of `Map`/`Set` payloads and opaque structured (`json`)
payloads are restricted to JSON-exact scalars (`Prim`), on which
`JSON.stringify`/`JSON.parse` is the identity, so the string layer of
the serialization can be elided and `serializeValue` lands directly in
the tagged payload type `CacheValue`. -/

/-- JSON-exact scalar values (strings, finite numbers, booleans, null)
used as elements of cached collections and opaque payloads. -/
inductive Prim where
  | pstr (s : String)
  | pnum (n : Int)
  | pbool (b : Bool)
  | pnull
  deriving DecidableEq

/-- Runtime values handled by the cache: the tags mirror the branches of
`HybridCache.serializeValue`.  A `Date` is identified by its epoch
milliseconds, a `Buffer` by its byte contents. -/
inductive JSValue where
  | vnull
  | vundefined
  | vstr (s : String)
  | vnum (n : Int)
  | vbool (b : Bool)
  | vdate (ms : Int)
  | vmap (entries : List (Prim × Prim))
  | vset (elems : List Prim)
  | vbuf (bytes : List Nat)
  | vjson (p : Prim)
  deriving DecidableEq

namespace HybridCache

/-- The tagged payload union `CacheValue` of cache.ts.  The `date` tag
carries `value.toISOString()`, identified here by the instant it
denotes; the `buffer` tag carries a base64 string, identified by the
bytes it encodes (both encodings are injective and exactly inverted by
the deserializer). -/
inductive CacheValue where
  | cnull
  | cundefined
  | cstring (s : String)
  | cnumber (n : Int)
  | cboolean (b : Bool)
  | cdate (iso : Int)
  | cmap (entries : List (Prim × Prim))
  | cset (elems : List Prim)
  | cbuffer (bytes : List Nat)
  | cjson (p : Prim)
  deriving DecidableEq

/-- `HybridCache.serializeValue` (cache.ts lines 64-90): the if/else
chain tagging the value.  All finite numbers satisfy the
`Number.isFinite` guard of the `number` branch (non-finite numbers are
not representable in `JSValue`). -/
def serializeValue : JSValue → CacheValue
  | .vnull => .cnull
  | .vundefined => .cundefined
  | .vstr s => .cstring s
  | .vnum n => .cnumber n
  | .vbool b => .cboolean b
  | .vdate ms => .cdate ms
  | .vmap entries => .cmap entries
  | .vset elems => .cset elems
  | .vbuf bytes => .cbuffer bytes
  | .vjson p => .cjson p

/-- Result of `HybridCache.deserializeValue`: either a runtime value or
the `UNDEFINED_SENTINEL` symbol. -/
inductive Deserialized where
  | value (v : JSValue)
  | undefinedSentinel
  deriving DecidableEq

/-- `HybridCache.deserializeValue` (cache.ts lines 92-124). -/
def deserializeValue : CacheValue → Deserialized
  | .cnull => .value .vnull
  | .cundefined => .undefinedSentinel
  | .cstring s => .value (.vstr s)
  | .cnumber n => .value (.vnum n)
  | .cboolean b => .value (.vbool b)
  | .cdate iso => .value (.vdate iso)
  | .cmap entries => .value (.vmap entries)
  | .cset elems => .value (.vset elems)
  | .cbuffer bytes => .value (.vbuf bytes)
  | .cjson p => .value (.vjson p)

/-- `HybridCache.unwrapDeserialized` (cache.ts lines 126-131): the
sentinel becomes `undefined`, everything else passes through. -/
def unwrapDeserialized : Deserialized → JSValue
  | .undefinedSentinel => .vundefined
  | .value v => v

/-- The in-process fallback store `memoryCache`: a JS `Map` from key to
the serialized value and its absolute expiry instant, modelled as an
insertion-ordered association list. -/
abbrev MemoryCache := List (String × CacheValue × Int)

/-- JS `Map.prototype.get`. -/
def memGet (st : MemoryCache) (k : String) : Option (CacheValue × Int) :=
  match st with
  | [] => none
  | (k', v) :: rest => if k' = k then some v else memGet rest k

/-- JS `Map.prototype.set`: overwrite in place if present, else append. -/
def memSet (st : MemoryCache) (k : String) (v : CacheValue × Int) : MemoryCache :=
  match st with
  | [] => [(k, v)]
  | (k', v') :: rest => if k' = k then (k, v) :: rest else (k', v') :: memSet rest k v

/-- JS `Map.prototype.delete`. -/
def memDelete (st : MemoryCache) (k : String) : MemoryCache :=
  match st with
  | [] => []
  | (k', v') :: rest => if k' = k then rest else (k', v') :: memDelete rest k

/-- `HybridCache.cleanupMemoryCache` (cache.ts lines 182-189): drop
every entry whose expiry lies strictly before `now`. -/
def cleanupMemoryCache (now : Int) (st : MemoryCache) : MemoryCache :=
  st.filter (fun e => ¬ now > e.2.2)

/-- `HybridCache.get` (cache.ts lines 133-157) on the memory-cache path
(the Redis path, when it does not error, runs the same
deserialize/unwrap pipeline).  A missing or expired entry is deleted and
yields `null`; a live entry is deserialized and unwrapped.  Returns the
produced value and the updated store. -/
def get (now : Int) (key : String) (st : MemoryCache) : JSValue × MemoryCache :=
  match memGet st key with
  | none => (.vnull, memDelete st key)
  | some (raw, expires) =>
      if now > expires then (.vnull, memDelete st key)
      else (unwrapDeserialized (deserializeValue raw), st)

/-- `HybridCache.set` (cache.ts lines 159-180) on the memory-cache path:
serialize, store with expiry `now + ttlSeconds * 1000`, then sweep
expired entries when the store has grown past `cleanupThreshold`. -/
def set (now : Int) (key : String) (value : JSValue) (ttlSeconds : Int)
    (cleanupThreshold : Nat) (st : MemoryCache) : MemoryCache :=
  let expires := now + ttlSeconds * 1000
  let st1 := memSet st key (serializeValue value, expires)
  if st1.length > cleanupThreshold then cleanupMemoryCache now st1 else st1

end HybridCache

/-- `getCachedOrFetch` (cache.ts lines 198-211).  The producer is a pure
value here (what `fetcher()` would resolve to); the returned boolean
records whether the producer was invoked. -/
def getCachedOrFetch (enableCache : Bool) (cleanupThreshold : Nat) (now : Int)
    (key : String) (fetcherResult : JSValue) (ttl : Int) (st : HybridCache.MemoryCache) :
    JSValue × HybridCache.MemoryCache × Bool :=
  if enableCache then
    let res := HybridCache.get now key st
    if res.1 ≠ .vnull then (res.1, res.2, false)
    else (fetcherResult, HybridCache.set now key fetcherResult ttl cleanupThreshold res.2, true)
  else
    (fetcherResult, st, true)

/-! ## Timestamp parsing (backend/src/utils/datetime.ts and the
timezone-aware `parseActRealtimeTimestamp` variant)

Both functions return `Option Int`: `some t` is the parsed instant in
epoch milliseconds, `none` is the fall-back-to-current-time path. -/

/-- Day number of the civil date `y-m-d` relative to 1970-01-01, by the
standard era decomposition (floor divisions).  For `1 ≤ m ≤ 12` and
`d ≥ 1` this coincides with ECMAScript `MakeDay(y, m-1, d)`, including
the rollover of a `d` past the end of the month. -/
def daysFromCivil (y m d : Int) : Int :=
  let yAdj := if m ≤ 2 then y - 1 else y
  let era := Int.fdiv yAdj 400
  let yoe := yAdj - era * 400
  let mp := if m > 2 then m - 3 else m + 9
  let doy := Int.fdiv (153 * mp + 2) 5 + d - 1
  let doe := yoe * 365 + Int.fdiv yoe 4 - Int.fdiv yoe 100 + doy
  era * 146097 + doe - 719468

/-- `Date.UTC(y, m - 1, d, hh, mm)` in epoch milliseconds (the month is
1-based here; the sources pass `month - 1` to the 0-based JS API). -/
def dateUTC (y m d hh mm : Int) : Int :=
  (daysFromCivil y m d * 86400 + hh * 3600 + mm * 60) * 1000

/-- `isoDigits s w` reads `s` as a `w`-digit field of an ECMAScript Date
Time String; `none` when `s` is not exactly `w` decimal digits. -/
def isoDigits (s : String) (width : Nat) : Option Nat :=
  if s.data.length = width ∧ s.data.all Char.isDigit then
    some (s.data.foldl (fun a c => a * 10 + (c.toNat - 48)) 0)
  else none

/-- `new Date(iso)` for `iso` built as `Y-M-DTH:MI:00` from the five
field strings: per the ECMAScript Date Time String Format, a string
without timezone designator is interpreted as wall-clock time in the
process-local zone, abstracted here as the constant UTC offset
`localOffsetMinutes`; a string that does not match the format (wrong
field widths, non-digits, out-of-range fields) gives an invalid date,
modelled as `none`. -/
def newDateIsoLocal (localOffsetMinutes : Int) (ys ms ds hs mins : String) : Option Int :=
  match isoDigits ys 4, isoDigits ms 2, isoDigits ds 2, isoDigits hs 2, isoDigits mins 2 with
  | some y, some m, some d, some hh, some mm =>
      if 1 ≤ m ∧ m ≤ 12 ∧ 1 ≤ d ∧ d ≤ 31 ∧ hh ≤ 23 ∧ mm ≤ 59 then
        some (dateUTC y m d hh mm - localOffsetMinutes * 60000)
      else none
  | _, _, _, _, _ => none

/-- `parseActRealtimeTimestamp` of backend/src/utils/datetime.ts (lines
10-26): split on a space, check the date part has 8 characters, slice
the fields, build an ISO-like string without timezone designator and
hand it to `new Date`.  `none` models both fall-back returns of
`new Date()` (missing/short input, invalid date). -/
def parseActRealtimeTimestampLocal (localOffsetMinutes : Int) (value : Option String) :
    Option Int :=
  let parts := match value with
    | none => []
    | some s => jsSplit s ' '
  let datePart := (parts[0]?).getD ""
  let timePart := (parts[1]?).getD ""
  if datePart = "" ∨ timePart = "" ∨ jsLength datePart ≠ 8 then none
  else
    newDateIsoLocal localOffsetMinutes
      (jsSubstring datePart 0 4) (jsSubstring datePart 4 6) (jsSubstring datePart 6 8)
      (((jsSplit timePart ':')[0]?).getD "00") (((jsSplit timePart ':')[1]?).getD "00")

/-- The offset-correction loop of the timezone-aware
`parseActRealtimeTimestamp` variant (its lines 116-127), unrolled: at
most two passes, each recomputing the target zone's offset at the
current candidate and re-adjusting the original provisional instant,
stopping early once the candidate is stable.  `off t` is the zone's
UTC offset in minutes at instant `t` (the `getTimezoneOffsetMinutes`
lookup into the timezone database). -/
def tzAdjust (off : Int → Int) (u : Int) : Int :=
  if u - off u * 60000 = u then u
  else if u - off (u - off u * 60000) * 60000 = u - off u * 60000 then
    u - off u * 60000
  else
    u - off (u - off u * 60000) * 60000

/-- The timezone-aware `parseActRealtimeTimestamp` (the unnamed module
pinning `America/Los_Angeles`, lines 60-132): split and slice as the
local variant does, but parse each field with `Number.parseInt`,
validate ranges (month 1-12, day 1-31, hour 0-23, minute 0-59),
construct the provisional instant with `Date.UTC`, and run the
offset-correction loop.  The timezone database is the parameter
`off`. -/
def parseActRealtimeTimestampTZ (off : Int → Int) (value : Option String) : Option Int :=
  let parts := match value with
    | none => []
    | some s => jsSplit s ' '
  let datePart := (parts[0]?).getD ""
  let timePart := (parts[1]?).getD ""
  if datePart = "" ∨ timePart = "" ∨ jsLength datePart ≠ 8 then none
  else
    match jsParseInt (jsSubstring datePart 0 4), jsParseInt (jsSubstring datePart 4 6),
        jsParseInt (jsSubstring datePart 6 8),
        jsParseInt (((jsSplit timePart ':')[0]?).getD "00"),
        jsParseInt (((jsSplit timePart ':')[1]?).getD "00") with
    | some year, some month, some day, some hour, some minute =>
        if month < 1 ∨ month > 12 ∨ day < 1 ∨ day > 31 ∨
            hour < 0 ∨ hour > 23 ∨ minute < 0 ∨ minute > 59 then none
        else some (tzAdjust off (dateUTC year month day hour minute))
    | _, _, _, _, _ => none

/-! ## GTFS-Realtime feed model (the `transit_realtime` interfaces, fields
used by this repository) -/

/-- JS truthiness of an optional number. -/
def jsTruthyNum : Option JSNum → Bool
  | none => false
  | some x => x.truthy

/-- JS truthiness of an optional integer (a protobuf `Long`, always
finite): `undefined`, `null` and `0` are falsy. -/
def jsTruthyInt : Option Int → Bool
  | none => false
  | some n => n ≠ 0

/-- JS `a || b` on optional integers. -/
def jsOrInt (a b : Option Int) : Option Int :=
  if jsTruthyInt a then a else b

/-- JS `x || null` on an optional number: a falsy `x` becomes `null`. -/
def jsOrNumNull (v : Option JSNum) : Option JSNum :=
  match v with
  | some x => if x.truthy then some x else none
  | none => none

/-- JS `x || null` on an optional string. -/
def jsOrStrNull (v : Option String) : Option String :=
  match v with
  | some s => if s ≠ "" then some s else none
  | none => none

/-- Insertion of an element into a sorted list, keeping existing
elements that compare `le` to the new one in front (models the stable
JS `Array.prototype.sort`; no claim under study depends on tie
order). -/
def insertSorted {α : Type} (le : α → α → Bool) (a : α) : List α → List α
  | [] => [a]
  | b :: bs => if le b a then b :: insertSorted le a bs else a :: b :: bs

/-- Insertion sort, the executable model of JS `Array.prototype.sort`
with a comparator. -/
def jsSortBy {α : Type} (le : α → α → Bool) : List α → List α
  | [] => []
  | a :: as => insertSorted le a (jsSortBy le as)

structure TripDescriptor where
  tripId : Option String
  routeId : Option String
  directionId : Option Int
  deriving DecidableEq, Inhabited

structure GtfsPosition where
  latitude : Option JSNum
  longitude : Option JSNum
  bearing : Option JSNum
  speed : Option JSNum
  deriving DecidableEq, Inhabited

structure VehicleDescriptor where
  id : Option String
  deriving DecidableEq, Inhabited

structure VehiclePosition where
  trip : Option TripDescriptor
  position : Option GtfsPosition
  currentStopSequence : Option JSNum
  timestamp : Option JSNum
  vehicle : Option VehicleDescriptor
  deriving DecidableEq, Inhabited

/-- `IStopTimeEvent.time`, a protobuf `Long`/number: finite by decoding. -/
structure StopTimeEvent where
  time : Option Int
  deriving DecidableEq, Inhabited

structure StopTimeUpdate where
  stopId : Option String
  arrival : Option StopTimeEvent
  departure : Option StopTimeEvent
  deriving DecidableEq, Inhabited

structure TripUpdate where
  trip : TripDescriptor
  vehicle : Option VehicleDescriptor
  stopTimeUpdate : Option (List StopTimeUpdate)
  deriving DecidableEq, Inhabited

structure EntitySelector where
  routeId : Option String
  stopId : Option String
  deriving DecidableEq, Inhabited

structure GtfsAlert where
  informedEntity : Option (List EntitySelector)
  deriving DecidableEq, Inhabited

structure FeedHeader where
  timestamp : Option JSNum
  deriving DecidableEq, Inhabited

structure FeedEntity where
  id : Option String
  vehicle : Option VehiclePosition
  tripUpdate : Option TripUpdate
  alert : Option GtfsAlert
  deriving DecidableEq, Inhabited

structure FeedMessage where
  header : Option FeedHeader
  entity : Option (List FeedEntity)
  deriving DecidableEq, Inhabited

/-! ## Position normalizers (backend/src/formatters, busPosition
formatter appended to busStop.ts in the dump, lines 31-171 of that file) -/

/-- `parseFiniteNumber` (formatter lines 51-68) on a numeric input:
`Number(value)` is the identity on numbers, so the result is the value
when finite, `null` otherwise. -/
def parseFiniteNumber (v : Option JSNum) : Option Int :=
  match v with
  | none => none
  | some (.num n) => some n
  | some _ => none

/-- Decimal value of a digit list. -/
def digitsVal (cs : List Char) : Int :=
  cs.foldl (fun a c => a * 10 + ((c.toNat : Int) - 48)) 0

/-- JS `Number(s)` for a string: the empty (trimmed) string is `0`, an
optionally signed digit string is its value, anything else is `NaN`.
Fractional decimal strings are modelled as `NaN`; the claims under study
inspect only presence and finiteness of the parsed coordinates, never
their magnitude. -/
def jsNumberOfString (s : String) : JSNum :=
  let t := jsTrim s
  if t = "" then .num 0
  else
    match t.data with
    | '-' :: rest => if rest ≠ [] ∧ rest.all Char.isDigit then .num (-(digitsVal rest)) else .nan
    | '+' :: rest => if rest ≠ [] ∧ rest.all Char.isDigit then .num (digitsVal rest) else .nan
    | cs => if cs.all Char.isDigit then .num (digitsVal cs) else .nan

/-- `parseFiniteNumber` (formatter lines 51-68) on a string input: trim,
reject the empty string, convert with `Number`, keep only finite
results. -/
def parseFiniteNumberStr (v : Option String) : Option Int :=
  match v with
  | none => none
  | some s =>
      if jsTrim s = "" then none
      else
        match jsNumberOfString s with
        | .num n => some n
        | _ => none

/-- `resolveTimestamp` (formatter lines 70-76): seconds from the vehicle
timestamp, else from the header timestamp, else the current time. -/
def resolveTimestamp (now : Int) (vehicleTimestamp headerTimestamp : Option JSNum) : Int :=
  match jsNullish (parseFiniteNumber vehicleTimestamp) (parseFiniteNumber headerTimestamp) with
  | some seconds => seconds * 1000
  | none => now

/-- The canonical `BusPosition` entity of the formatter.  `speed` is in
units of 10^-5 m/s: the multiplication by `MPH_TO_METERS_PER_SECOND =
0.44704` is modelled exactly by the integer scaling `* 44704`. -/
structure BusPosition where
  vehicleId : String
  routeId : String
  latitude : Int
  longitude : Int
  heading : Option Int
  speed : Option Int
  timestamp : Int
  tripId : Option String
  stopSequence : Option Int
  deriving DecidableEq, Inhabited

/-- The body of the `flatMap` of `createBusPositionsFromGtfsFeed`
(formatter lines 85-115), written as a named per-entity converter:
either one position or nothing. -/
def gtfsEntityToPosition (now : Int) (headerTimestamp : Option JSNum)
    (entity : FeedEntity) : List BusPosition :=
  match entity.vehicle with
  | none => []
  | some vehicle =>
      let routeId := vehicle.trip.bind (·.routeId)
      let latitude := parseFiniteNumber (vehicle.position.bind (·.latitude))
      let longitude := parseFiniteNumber (vehicle.position.bind (·.longitude))
      let vehicleId :=
        (jsNullish (vehicle.vehicle.bind (·.id)) (jsNullish entity.id (some ""))).getD ""
      match routeId, latitude, longitude with
      | some rid, some lat, some lon =>
          if rid = "" ∨ vehicleId = "" then []
          else
            [{ vehicleId := vehicleId
               routeId := rid
               latitude := lat
               longitude := lon
               heading := parseFiniteNumber (vehicle.position.bind (·.bearing))
               speed := parseFiniteNumber (vehicle.position.bind (·.speed))
               timestamp := resolveTimestamp now vehicle.timestamp headerTimestamp
               tripId := vehicle.trip.bind (·.tripId)
               stopSequence := parseFiniteNumber vehicle.currentStopSequence }]
      | _, _, _ => []

/-- `createBusPositionsFromGtfsFeed` (formatter lines 78-118): keep an
entity only when it has a vehicle record with a truthy `routeId`, finite
latitude and longitude, and a non-empty vehicle id (`vehicle.vehicle?.id
?? entity.id ?? ''`); sort the results by vehicle id.  `Math.round` on
the already-integral stop sequence is the identity. -/
def createBusPositionsFromGtfsFeed (now : Int) (feedMessage : FeedMessage) : List BusPosition :=
  match feedMessage.entity with
  | none => []
  | some entities =>
      if entities.length = 0 then []
      else
        let headerTimestamp := feedMessage.header.bind (·.timestamp)
        let positions := entities.flatMap (gtfsEntityToPosition now headerTimestamp)
        jsSortBy (fun a b => decide (a.vehicleId ≤ b.vehicleId)) positions

/-- The raw JSON-feed vehicle record `BusPositionRaw`
(backend/src/services/actRealtime.ts lines 56-79; display-only fields
that no embedded function reads are omitted). -/
structure BusPositionRaw where
  vid : String
  rt : String
  des : String
  tmstmp : String
  lat : String
  lon : String
  hdg : Option String
  spd : Option JSNum
  tatripid : Option String
  tripid : Option Int
  deriving DecidableEq, Inhabited

/-- `resolveTripId` (formatter lines 120-131). -/
def resolveTripId (raw : BusPositionRaw) : Option String :=
  let trimmedStringTripId := raw.tatripid.map jsTrim
  if jsTruthyStr trimmedStringTripId then trimmedStringTripId
  else
    match raw.tripid with
    | some t => some (toString t)
    | none => none

/-- `createBusPositionsFromActRealtime` (formatter lines 133-171): drop
a raw record unless its trimmed vehicle and route ids are non-empty and
both coordinate strings parse to finite numbers; timestamps go through
the local-zone `parseActRealtimeTimestamp` of utils/datetime.ts; this is
the body of its `map` (formatter lines 139-166) as a named per-record
converter, whose `null` results are the records the subsequent `filter`
removes, so `Option` composes with `filterMap` below. -/
def actRawToPosition (now localOffsetMinutes : Int) (rawPosition : BusPositionRaw) :
    Option BusPosition :=
  let vehicleId := jsTrim rawPosition.vid
  let routeId := jsTrim rawPosition.rt
  match parseFiniteNumberStr (some rawPosition.lat),
      parseFiniteNumberStr (some rawPosition.lon) with
  | some latitude, some longitude =>
      if vehicleId = "" ∨ routeId = "" then none
      else
        some { vehicleId := vehicleId
               routeId := routeId
               latitude := latitude
               longitude := longitude
               heading := parseFiniteNumberStr rawPosition.hdg
               speed := (parseFiniteNumber rawPosition.spd).map (fun v => v * 44704)
               timestamp :=
                 (parseActRealtimeTimestampLocal localOffsetMinutes
                   (some rawPosition.tmstmp)).getD now
               tripId := resolveTripId rawPosition
               stopSequence := none }
  | _, _ => none

def createBusPositionsFromActRealtime (now localOffsetMinutes : Int)
    (rawPositions : List BusPositionRaw) : List BusPosition :=
  if rawPositions.length = 0 then []
  else
    let positions := rawPositions.filterMap (actRawToPosition now localOffsetMinutes)
    jsSortBy (fun a b => decide (a.vehicleId ≤ b.vehicleId)) positions

/-! ## The earlier GTFS parser service (gtfsParser.ts, the unnamed
module exporting the `GTFSParser` singleton) -/

/-- The `ParsedBusPosition` interface of gtfsParser.ts.  `latitude` and
`longitude` are kept as raw JS numbers: this normalizer checks them only
for truthiness, not finiteness.  A truthy non-finite vehicle timestamp
would construct an invalid `Date`; timestamps are finite in decoded
feeds and the non-finite case is collapsed to the current-time branch
here. -/
structure ParsedBusPosition where
  vehicleId : String
  routeId : String
  isOutbound : Bool
  latitude : JSNum
  longitude : JSNum
  heading : Option JSNum
  speed : Option JSNum
  timestamp : Int
  tripId : Option String
  stopSequence : Option JSNum
  deriving DecidableEq, Inhabited

namespace GTFSParser

/-- `GTFSParser.parseVehiclePositions` (gtfsParser.ts lines 148-175):
keep entities whose vehicle has truthy latitude, longitude and route id,
then map them, defaulting a missing vehicle id to the placeholder string
`'unknown'` (`entity.id || vehicle.vehicle?.id || 'unknown'`). -/
def parseVehiclePositions (now : Int) (feedMessage : FeedMessage) : List ParsedBusPosition :=
  match feedMessage.entity with
  | none => []
  | some entities =>
      (entities.filter (fun entity =>
          jsTruthyNum ((entity.vehicle.bind (·.position)).bind (·.latitude)) &&
          jsTruthyNum ((entity.vehicle.bind (·.position)).bind (·.longitude)) &&
          jsTruthyStr ((entity.vehicle.bind (·.trip)).bind (·.routeId)))).map (fun entity =>
        let vehicle := entity.vehicle.getD default
        let position := vehicle.position.getD default
        let trip := vehicle.trip.getD default
        { vehicleId :=
            (jsOrStr (jsOrStr entity.id (vehicle.vehicle.bind (·.id))) (some "unknown")).getD
              "unknown"
          routeId := trip.routeId.getD ""
          isOutbound := trip.directionId == some (0 : Int)
          latitude := position.latitude.getD (.num 0)
          longitude := position.longitude.getD (.num 0)
          heading := jsOrNumNull position.bearing
          speed := jsOrNumNull position.speed
          timestamp :=
            match vehicle.timestamp with
            | some (.num n) => if n ≠ 0 then n * 1000 else now
            | _ => now
          tripId := jsOrStrNull trip.tripId
          stopSequence := jsOrNumNull vehicle.currentStopSequence })

end GTFSParser

/-- Stop metadata entry (`{ name, lat, lon }`) for
`GTFSParser.parseTripUpdates`. -/
structure StopMeta where
  name : String
  lat : Int
  lon : Int
  deriving DecidableEq, Inhabited

/-- The `ParsedArrival` interface of gtfsParser.ts. -/
structure ParsedArrival where
  vehicleId : String
  tripId : String
  arrivalTime : Int
  departureTime : Int
  minutesAway : Int
  isOutbound : Bool
  deriving DecidableEq, Inhabited

/-- The `ParsedStopPrediction` interface of gtfsParser.ts. -/
structure ParsedStopPrediction where
  stopId : String
  stopName : String
  direction : String
  arrivals : List ParsedArrival
  latitude : Int
  longitude : Int
  deriving DecidableEq, Inhabited

/-- The flattened per-stop-time context built by the first stage of
`parseTripUpdates`. -/
structure StopUpdateCtx where
  stopId : String
  tripId : String
  vehicleId : String
  isOutbound : Bool
  arrivalTimestamp : Option Int
  departureTimestamp : Option Int
  deriving DecidableEq, Inhabited

/-- `Math.round((arrivalMs - nowMs) / 60000)`: JS `Math.round x` is
`⌊x + 1/2⌋`, so for the positive divisor 60000 this is
`⌊(2·diff + 60000) / 120000⌋`. -/
def roundedMinutes (nowMs arrivalMs : Int) : Int :=
  Int.fdiv (2 * (arrivalMs - nowMs) + 60000) 120000

/-- Association-list lookup for the insertion-ordered `Map` used by the
grouping `reduce`. -/
def assocGet {β : Type} (l : List (String × β)) (k : String) : Option β :=
  match l with
  | [] => none
  | (k', v) :: rest => if k' = k then some v else assocGet rest k

/-- JS `Map.prototype.set` on the association list. -/
def assocSet {β : Type} (l : List (String × β)) (k : String) (v : β) : List (String × β) :=
  match l with
  | [] => [(k, v)]
  | (k', v') :: rest => if k' = k then (k, v) :: rest else (k', v') :: assocSet rest k v

/-- `if (profile) map.set(code, profile)`: set the binding only when a
value was found. -/
def setIfFound {β : Type} (m : List (String × β)) (c : String) (v? : Option β) :
    List (String × β) :=
  match v? with
  | some v => assocSet m c v
  | none => m

namespace GTFSParser

/-- One step of the grouping `reduce` of `parseTripUpdates` (gtfsParser.ts
lines 210-240): create the stop's group on first sight, then push the
arrival with `minutesAway` floored at zero. -/
def tripUpdatesStep (now : Int) (stopMetadata : Option (List (String × StopMeta)))
    (acc : List (String × ParsedStopPrediction)) (update : StopUpdateCtx) :
    List (String × ParsedStopPrediction) :=
  let acc :=
    if (assocGet acc update.stopId).isNone then
      let metadata := stopMetadata.bind (fun m => assocGet m update.stopId)
      assocSet acc update.stopId
        { stopId := update.stopId
          stopName :=
            match metadata with
            | some m => if m.name ≠ "" then m.name else "Stop " ++ update.stopId
            | none => "Stop " ++ update.stopId
          direction := if update.isOutbound then "Outbound" else "Inbound"
          arrivals := []
          latitude := match metadata with | some m => m.lat | none => 0
          longitude := match metadata with | some m => m.lon | none => 0 }
    else acc
  let arrivalTime := (jsOrInt update.arrivalTimestamp none).getD 0 * 1000
  let departureTime := (jsOrInt update.departureTimestamp update.arrivalTimestamp).getD 0 * 1000
  let minutesAway := roundedMinutes now arrivalTime
  match assocGet acc update.stopId with
  | some group =>
      assocSet acc update.stopId
        { group with
          arrivals := group.arrivals ++
            [{ vehicleId := update.vehicleId
               tripId := update.tripId
               arrivalTime := arrivalTime
               departureTime := departureTime
               minutesAway := max 0 minutesAway
               isOutbound := update.isOutbound }] }
  | none => acc

/-- `GTFSParser.parseTripUpdates` (gtfsParser.ts lines 181-247): flatten
entities carrying a truthy trip `routeId` and a stop-time-update list
into per-stop-time contexts, keep those with a truthy arrival timestamp,
group them by stop id in insertion order, and sort each group's arrivals
by arrival time. -/
def parseTripUpdates (now : Int) (feedMessage : FeedMessage)
    (stopMetadata : Option (List (String × StopMeta))) : List ParsedStopPrediction :=
  match feedMessage.entity with
  | none => []
  | some entities =>
      let allStopUpdates := (entities.filter (fun entity =>
          jsTruthyStr (entity.tripUpdate.bind (fun tu => tu.trip.routeId)) &&
          (entity.tripUpdate.bind (·.stopTimeUpdate)).isSome)).flatMap (fun entity =>
        let tripUpdate := entity.tripUpdate.getD default
        let trip := tripUpdate.trip
        let isOutbound := trip.directionId == some (0 : Int)
        let vehicleId :=
          (jsOrStr (jsOrStr (tripUpdate.vehicle.bind (·.id)) entity.id)
            (some "unknown")).getD "unknown"
        (((tripUpdate.stopTimeUpdate.getD []).filter (fun stu =>
            jsTruthyStr stu.stopId)).map (fun stu =>
          { stopId := stu.stopId.getD ""
            tripId := (jsOrStr trip.tripId (some "")).getD ""
            vehicleId := vehicleId
            isOutbound := isOutbound
            arrivalTimestamp := jsOrInt (stu.arrival.bind (·.time)) (stu.departure.bind (·.time))
            departureTimestamp :=
              jsOrInt (stu.departure.bind (·.time)) (stu.arrival.bind (·.time))
            : StopUpdateCtx })).filter (fun update => jsTruthyInt update.arrivalTimestamp))
      let predictionsByStop := allStopUpdates.foldl (tripUpdatesStep now stopMetadata) []
      (predictionsByStop.map Prod.snd).map (fun prediction =>
        { prediction with
          arrivals := jsSortBy (fun a b => decide (a.arrivalTime ≤ b.arrivalTime))
            prediction.arrivals })

end GTFSParser

/-! ## Prediction normalizers (backend/src/formatters/busStopPrediction.ts) -/

/-- The raw JSON-feed prediction record `BusStopPredictionRaw`
(backend/src/services/actRealtime.ts lines 23-39; display-only fields
that no embedded function reads are omitted). -/
structure BusStopPredictionRaw where
  tmstmp : String
  stpid : String
  vid : String
  dstp : JSNum
  rt : String
  rtdir : String
  prdtm : String
  tatripid : String
  prdctdn : String
  seq : Int
  deriving DecidableEq, Inhabited

/-- The canonical `BusStopPrediction` entity of the formatter. -/
structure BusStopPrediction where
  vehicleId : String
  tripId : String
  arrivalTime : Int
  departureTime : Int
  minutesAway : Int
  isOutbound : Bool
  distanceToStopFeet : Option Int
  deriving DecidableEq, Inhabited

/-- Is `needle` a prefix of `hay`? -/
def isPrefixOfChars : List Char → List Char → Bool
  | [], _ => true
  | _ :: _, [] => false
  | a :: as, b :: bs => a = b && isPrefixOfChars as bs

/-- Is `needle` a contiguous substring of `hay`?  Models JS
`String.prototype.includes`. -/
def strIncludesAux (needle : List Char) : List Char → Bool
  | [] => isPrefixOfChars needle []
  | c :: rest => isPrefixOfChars needle (c :: rest) || strIncludesAux needle rest

/-- JS `hay.includes(needle)`. -/
def strIncludes (hay needle : String) : Bool :=
  strIncludesAux needle.data hay.data

/-- `parseMinutesAway` (busStopPrediction.ts lines 16-23): `'Due'` is 0,
otherwise `Number.parseInt` with `NaN` collapsed to 0. -/
def parseMinutesAway (value : String) : Int :=
  if value = "Due" then 0
  else
    match jsParseInt value with
    | some parsed => parsed
    | none => 0

/-- `isOutboundDirection` (busStopPrediction.ts lines 25-28): the
lower-cased free-text direction mentions `amtrak` or `away`. -/
def isOutboundDirection (direction : String) : Bool :=
  let normalized := jsToLowerCase direction
  strIncludes normalized "amtrak" || strIncludes normalized "away"

/-- `formatMinutesAway` (busStopPrediction.ts lines 30-35): floor the
computed minutes at zero. -/
def formatMinutesAway (arrivalUnixTime : Int) : Int :=
  max 0 arrivalUnixTime

/-- `createBusStopPredictionsFromActRealtime` (busStopPrediction.ts
lines 37-62): keep raw predictions whose direction matches, convert
them (arrival times through the local-zone timestamp parser of
utils/datetime.ts, falling back to the current time), and sort by
arrival time. -/
def createBusStopPredictionsFromActRealtime (now localOffsetMinutes : Int)
    (rawPredictions : List BusStopPredictionRaw) (isOutbound : Bool) :
    List BusStopPrediction :=
  if rawPredictions.length = 0 then []
  else
    jsSortBy (fun a b => decide (a.arrivalTime ≤ b.arrivalTime))
      ((rawPredictions.filter
          (fun prediction => isOutboundDirection prediction.rtdir == isOutbound)).map
        (fun prediction =>
          let arrivalTime :=
            (parseActRealtimeTimestampLocal localOffsetMinutes (some prediction.prdtm)).getD now
          let minutesAway := parseMinutesAway prediction.prdctdn
          { vehicleId := prediction.vid
            tripId := prediction.tatripid
            arrivalTime := arrivalTime
            departureTime := arrivalTime
            minutesAway := formatMinutesAway minutesAway
            isOutbound := isOutboundDirection prediction.rtdir
            distanceToStopFeet :=
              match prediction.dstp with
              | .num n => some n
              | _ => none }))

/-- `createBusStopPredictionsFromGtfsFeed` (busStopPrediction.ts lines
64-110): entities with a truthy trip route id and a stop-time-update
list are flattened; stop-time updates need a truthy stop id, at least
one of arrival/departure time, and a matching direction
(`directionId === 1` is outbound here); `minutesAway` is the rounded
distance from the current time floored at zero; results are sorted by
arrival time. -/
def createBusStopPredictionsFromGtfsFeed (now : Int) (feedMessage : FeedMessage)
    (isOutbound : Bool) : List BusStopPrediction :=
  match feedMessage.entity with
  | none => []
  | some entities =>
      let allStopUpdates := (entities.filter (fun entity =>
          jsTruthyStr (entity.tripUpdate.bind (fun tu => tu.trip.routeId)) &&
          (entity.tripUpdate.bind (·.stopTimeUpdate)).isSome)).flatMap (fun entity =>
        let tripUpdate := entity.tripUpdate.getD default
        let trip := tripUpdate.trip
        let tripIsOutbound := trip.directionId == some (1 : Int)
        let vehicleId :=
          (jsOrStr (jsOrStr (tripUpdate.vehicle.bind (·.id)) entity.id)
            (some "unknown")).getD "unknown"
        ((tripUpdate.stopTimeUpdate.getD []).filter (fun stopTimeUpdate =>
            jsTruthyStr stopTimeUpdate.stopId &&
            (jsTruthyInt (stopTimeUpdate.arrival.bind (·.time)) ||
              jsTruthyInt (stopTimeUpdate.departure.bind (·.time))) &&
            tripIsOutbound == isOutbound)).map (fun stopTimeUpdate =>
          let arrivalUnixTime := stopTimeUpdate.arrival.bind (·.time)
          let departureUnixTime := stopTimeUpdate.departure.bind (·.time)
          let arrivalTime := (jsOrInt arrivalUnixTime departureUnixTime).getD 0 * 1000
          let departureTime := (jsOrInt departureUnixTime arrivalUnixTime).getD 0 * 1000
          { tripId := (jsOrStr trip.tripId (some "")).getD ""
            vehicleId := vehicleId
            isOutbound := tripIsOutbound
            arrivalTime := arrivalTime
            departureTime := departureTime
            minutesAway := formatMinutesAway (roundedMinutes now arrivalTime)
            distanceToStopFeet := none }))
      jsSortBy (fun a b => decide (a.arrivalTime ≤ b.arrivalTime)) allStopUpdates

/-! ## Route filtering (backend/src/services/acTransit.ts and the
unnamed gtfsRealtime.ts service) -/

namespace ACTransitService

/-- `ACTransitService.filterByRoute` (acTransit.ts lines 228-249): keep
entities whose vehicle trip, trip-update trip, or alert informed
entities carry the requested route id; spread the rest of the feed
unchanged. -/
def filterByRoute (feed : FeedMessage) (routeId : String) : FeedMessage :=
  let filteredEntities := (feed.entity.getD []).filter (fun entity =>
    ((entity.vehicle.bind (·.trip)).bind (·.routeId) == some routeId) ||
    (entity.tripUpdate.bind (fun tu => tu.trip.routeId) == some routeId) ||
    ((entity.alert.bind (·.informedEntity)).getD []).any
      (fun informed => informed.routeId == some routeId))
  { feed with entity := some filteredEntities }

end ACTransitService

namespace GTFSRealtimeService

/-- `GTFSRealtimeService.filterByRoute` (the unnamed gtfsRealtime.ts,
lines 194-215): textually identical to `ACTransitService.filterByRoute`. -/
def filterByRoute (feed : FeedMessage) (routeId : String) : FeedMessage :=
  let filteredEntities := (feed.entity.getD []).filter (fun entity =>
    ((entity.vehicle.bind (·.trip)).bind (·.routeId) == some routeId) ||
    (entity.tripUpdate.bind (fun tu => tu.trip.routeId) == some routeId) ||
    ((entity.alert.bind (·.informedEntity)).getD []).any
      (fun informed => informed.routeId == some routeId))
  { feed with entity := some filteredEntities }

end GTFSRealtimeService

/-! ## ACTRealtimeService (backend/src/services/actRealtime.ts)

The HTTP layer is a parameter: each raw fetcher receives the upstream
response it would observe (status plus the payload field it reads), and
additionally reports whether the network request was issued at all.
The `getCachedOrFetch` wrapper of the batched fetchers returns the
producer's result on a cold cache; the batched fetchers are modelled at
that cache-cold instantiation, with the per-chunk response a function of
the (sorted) chunk. -/

/-- Errors thrown by the raw fetchers: the 10-identifier batch-limit
contract violation, or a non-success non-404 HTTP status. -/
inductive FetchFailure where
  | batchLimit
  | http (status : Nat)
  deriving DecidableEq

/-- `Response.ok` of the Fetch API: status in the 2xx range. -/
def respOk (status : Nat) : Bool := 200 ≤ status ∧ status ≤ 299

/-- The raw JSON-feed stop profile `BusStopProfileRaw` (actRealtime.ts
lines 6-12). -/
structure BusStopProfileRaw where
  stpid : String
  stpnm : String
  geoid : String
  lat : JSNum
  lon : JSNum
  deriving DecidableEq, Inhabited

/-- Observed response of the stop-profile endpoint: HTTP status and
`data?.['bustime-response']?.stops`. -/
structure ProfileApiResponse where
  status : Nat
  stops : Option (List BusStopProfileRaw)
  deriving DecidableEq, Inhabited

/-- Observed response of the prediction endpoint: HTTP status and
`data['bustime-response']?.prd` (the parsed response body itself is a
JSON object, hence truthy). -/
structure PredictionApiResponse where
  status : Nat
  prd : Option (List BusStopPredictionRaw)
  deriving DecidableEq, Inhabited

/-- Observed response of the vehicle-position endpoint: HTTP status and
`data?.['bustime-response']?.vehicle`. -/
structure VehicleApiResponse where
  status : Nat
  vehicle : Option (List BusPositionRaw)
  deriving DecidableEq, Inhabited

namespace ACTRealtimeService

/-- `fetchBusStopProfilesRaw` (actRealtime.ts lines 136-195): empty
input short-circuits; more than 10 stop codes throws before the fetch;
404 yields the empty map; any other non-2xx status throws; otherwise
each requested code found in the returned `stops` array is entered into
the map.  The boolean reports whether the network request was issued. -/
def fetchBusStopProfilesRaw (stopCodes : List String) (response : ProfileApiResponse) :
    Except FetchFailure (List (String × BusStopProfileRaw)) × Bool :=
  if stopCodes.length = 0 then (.ok [], false)
  else if stopCodes.length > 10 then (.error .batchLimit, false)
  else if ¬ respOk response.status then
    if response.status = 404 then (.ok [], true)
    else (.error (.http response.status), true)
  else
    match response.stops with
    | none => (.ok [], true)
    | some stops =>
        if stops.length = 0 then (.ok [], true)
        else
          (.ok (stopCodes.foldl (fun profileMap stopCode =>
            setIfFound profileMap stopCode
              (stops.find? (fun stop => stop.stpid = stopCode))) []), true)

/-- `fetchBusStopPredictionsRaw` (actRealtime.ts lines 252-302): same
guards; on success every requested code is entered, mapped to the
predictions filtered to that code (or `[]` when the `prd` array is
absent). -/
def fetchBusStopPredictionsRaw (stopCodes : List String) (response : PredictionApiResponse) :
    Except FetchFailure (List (String × List BusStopPredictionRaw)) × Bool :=
  if stopCodes.length = 0 then (.ok [], false)
  else if stopCodes.length > 10 then (.error .batchLimit, false)
  else if ¬ respOk response.status then
    if response.status = 404 then (.ok [], true)
    else (.error (.http response.status), true)
  else
    (.ok (stopCodes.foldl (fun predictionsMap stopCode =>
      assocSet predictionsMap stopCode
        (match response.prd with
          | some predictions => predictions.filter (fun p => p.stpid = stopCode)
          | none => [])) []), true)

/-- `fetchBusPositionsRaw` (actRealtime.ts lines 383-414): 404 yields
the empty list, any other non-2xx status throws, a missing or empty
`vehicle` array yields the empty list. -/
def fetchBusPositionsRaw (response : VehicleApiResponse) :
    Except FetchFailure (List BusPositionRaw) × Bool :=
  if ¬ respOk response.status then
    if response.status = 404 then (.ok [], true)
    else (.error (.http response.status), true)
  else
    match response.vehicle with
    | none => (.ok [], true)
    | some vehicles => if vehicles.length = 0 then (.ok [], true) else (.ok vehicles, true)

/-- Lexicographic comparison of character lists by code unit, the order
of the default `Array.prototype.sort` comparator on strings. -/
def strLeAux : List Char → List Char → Bool
  | [], _ => true
  | _ :: _, [] => false
  | c :: cs, d :: ds =>
      if c.toNat < d.toNat then true
      else if d.toNat < c.toNat then false
      else strLeAux cs ds

/-- String comparison by code units (default JS sort order). -/
def strLeCode (a b : String) : Bool := strLeAux a.data b.data

/-- The in-place `chunk.sort()` (default JS comparator: lexicographic by
code units) used to build the chunk's cache key; the sorted chunk is the
array the raw fetcher then receives. -/
def jsSortStrings (l : List String) : List String :=
  jsSortBy strLeCode l

/-- The chunking expression shared by the batched fetchers (actRealtime.ts
lines 210-213 and 317-320): `Array.from` over `Math.ceil(N / 10)`
indices, each taking `slice(i * 10, (i + 1) * 10)`. -/
def chunksOf10 (stopCodes : List String) : List (List String) :=
  (List.range ((stopCodes.length + 9) / 10)).map
    (fun index => (stopCodes.drop (index * 10)).take 10)

/-- `fetchBusStopProfiles` (actRealtime.ts lines 202-245): chunk the
input, fetch each chunk (after the in-place `chunk.sort()` used for the
cache key) through `getCachedOrFetch`, merge successful non-empty chunk
maps into the shared map, and swallow per-chunk failures. -/
def fetchBusStopProfiles (respFor : List String → ProfileApiResponse)
    (stopCodes : List String) : List (String × BusStopProfileRaw) :=
  if stopCodes.length = 0 then []
  else
    (chunksOf10 stopCodes).foldl (fun profileMap chunk =>
      let sortedChunk := jsSortStrings chunk
      match (fetchBusStopProfilesRaw sortedChunk (respFor sortedChunk)).1 with
      | .error _ => profileMap
      | .ok chunkMap =>
          if chunkMap.length > 0 then
            chunkMap.foldl (fun m e => assocSet m e.1 e.2) profileMap
          else profileMap) []

/-- `fetchBusStopPredictions` (actRealtime.ts lines 309-343): as for
profiles, without the non-empty guard on the merged chunk map. -/
def fetchBusStopPredictions (respFor : List String → PredictionApiResponse)
    (stopCodes : List String) : List (String × List BusStopPredictionRaw) :=
  if stopCodes.length = 0 then []
  else
    (chunksOf10 stopCodes).foldl (fun predictionsMap chunk =>
      let sortedChunk := jsSortStrings chunk
      match (fetchBusStopPredictionsRaw sortedChunk (respFor sortedChunk)).1 with
      | .error _ => predictionsMap
      | .ok chunkMap => chunkMap.foldl (fun m e => assocSet m e.1 e.2) predictionsMap) []

end ACTRealtimeService

/-! ## The busStopPredictions subscription generator
(backend/src/schema/busStopPredictions/busStopPredictions.resolver.ts,
lines 71-107)

`fetchBusStopPredictions` (the resolver-level helper) is abstracted as a
sequence of outcomes, one per fetch the generator performs; the list
passed to the interpreter is the prefix of outcomes observed before the
consumer stops the stream, so an empty remainder means the consumer
cancelled.  The interpreter returns the emitted signals and the number
of upstream fetches consumed. -/

/-- `extensions.code` values of the thrown `GraphQLError`s. -/
inductive GqlErrorCode where
  | notFound
  | fetchError
  | other
  deriving DecidableEq

/-- An error thrown by the fetch helper: a `GraphQLError` carrying a
code, or a plain (transient transport) error. -/
inductive FetchError where
  | graphql (code : GqlErrorCode)
  | plain
  deriving DecidableEq

/-- One fetch outcome. -/
inductive FetchOutcome where
  | ok (predictions : List BusStopPrediction)
  | err (e : FetchError)
  deriving DecidableEq

/-- A signal observable by the subscription consumer. -/
inductive Emission where
  | snapshot (predictions : List BusStopPrediction)
  | failure (e : FetchError)
  deriving DecidableEq

/-- The `error instanceof GraphQLError && error.extensions?.code ===
'NOT_FOUND'` test of the polling loop's catch. -/
def isNotFoundError : FetchError → Bool
  | .graphql .notFound => true
  | _ => false

/-- The priming catch block (resolver lines 77-91): a `GraphQLError` is
rethrown as is, anything else is wrapped in a `GraphQLError` with code
`FETCH_ERROR`. -/
def wrapPrimingError : FetchError → FetchError
  | .graphql code => .graphql code
  | .plain => .graphql .fetchError

/-- The steady-state `while (true)` polling loop (resolver lines
93-106): each iteration sleeps, fetches, and yields the result; a
`NOT_FOUND` `GraphQLError` is rethrown (ending the stream), any other
error yields an empty snapshot and the loop continues. -/
def runPolls : List FetchOutcome → List Emission × Nat
  | [] => ([], 0)
  | .ok predictions :: rest =>
      let continued := runPolls rest
      (.snapshot predictions :: continued.1, continued.2 + 1)
  | .err e :: rest =>
      if isNotFoundError e then ([.failure e], 1)
      else
        let continued := runPolls rest
        (.snapshot [] :: continued.1, continued.2 + 1)

/-- `Subscription.busStopPredictions.subscribe` (resolver lines 71-107):
one priming fetch whose success is emitted and whose failure is wrapped
and terminal, then the polling loop. -/
def subscribeBusStopPredictions (outcomes : List FetchOutcome) : List Emission × Nat :=
  match outcomes with
  | [] => ([], 0)
  | .ok initialPredictions :: rest =>
      let continued := runPolls rest
      (.snapshot initialPredictions :: continued.1, continued.2 + 1)
  | .err e :: _ => ([.failure (wrapPrimingError e)], 1)

/-! ## General lemmas about the embedding's helpers -/

theorem insertSorted_perm {α : Type} (le : α → α → Bool) (a : α) (l : List α) :
    List.Perm (insertSorted le a l) (a :: l) := by
  induction l with
  | nil => simp [insertSorted]
  | cons b bs ih =>
      simp only [insertSorted]
      split
      · exact (ih.cons b).trans (List.Perm.swap a b bs)
      · exact List.Perm.refl _

theorem jsSortBy_perm {α : Type} (le : α → α → Bool) (l : List α) :
    List.Perm (jsSortBy le l) l := by
  induction l with
  | nil => simp [jsSortBy]
  | cons a as ih => exact (insertSorted_perm le a (jsSortBy le as)).trans (ih.cons a)

theorem jsSortBy_mem {α : Type} (le : α → α → Bool) (l : List α) (x : α) :
    x ∈ jsSortBy le l ↔ x ∈ l :=
  (jsSortBy_perm le l).mem_iff

theorem jsSortBy_length {α : Type} (le : α → α → Bool) (l : List α) :
    (jsSortBy le l).length = l.length :=
  (jsSortBy_perm le l).length_eq

theorem assocGet_set_self {β : Type} (l : List (String × β)) (k : String) (v : β) :
    assocGet (assocSet l k v) k = some v := by
  induction l with
  | nil => simp [assocSet, assocGet]
  | cons e rest ih =>
      by_cases h : e.1 = k
      · simp [assocSet, assocGet, h]
      · simp [assocSet, assocGet, h, ih]

theorem assocGet_set_ne {β : Type} (l : List (String × β)) (k k' : String) (v : β)
    (h : k' ≠ k) : assocGet (assocSet l k v) k' = assocGet l k' := by
  induction l with
  | nil => simp [assocSet, assocGet, Ne.symm h]
  | cons e rest ih =>
      obtain ⟨k1, v1⟩ := e
      by_cases he : k1 = k
      · subst he
        simp [assocSet, assocGet, Ne.symm h]
      · by_cases he' : k1 = k'
        · simp [assocSet, assocGet, he, he', h]
        · simp [assocSet, assocGet, he, he', ih]

theorem assocSet_mem {β : Type} {l : List (String × β)} {k : String} {v : β} {x : String × β}
    (hx : x ∈ assocSet l k v) : x = (k, v) ∨ x ∈ l := by
  induction l with
  | nil => simpa [assocSet] using hx
  | cons e rest ih =>
      by_cases he : e.1 = k
      · simp only [assocSet, he, if_pos] at hx
        rcases List.mem_cons.mp hx with h | h
        · exact Or.inl h
        · exact Or.inr (List.mem_cons_of_mem e h)
      · simp only [assocSet, he, if_neg, not_false_iff] at hx
        rcases List.mem_cons.mp hx with h | h
        · exact Or.inr (h ▸ List.mem_cons_self e rest)
        · rcases ih h with h' | h'
          · exact Or.inl h'
          · exact Or.inr (List.mem_cons_of_mem e h')

theorem assocGet_mem {β : Type} {l : List (String × β)} {k : String} {g : β}
    (h : assocGet l k = some g) : (k, g) ∈ l := by
  induction l with
  | nil => simp [assocGet] at h
  | cons e rest ih =>
      by_cases he : e.1 = k
      · simp only [assocGet, he, if_pos] at h
        have : e = (k, g) := by
          cases e with
          | mk k1 v1 =>
              cases h
              simpa using he
        exact this ▸ List.mem_cons_self e rest
      · simp only [assocGet, he, if_neg, not_false_iff] at h
        exact List.mem_cons_of_mem e (ih h)

/-- The cache serializer round-trips every representable runtime value
through the deserializer and the sentinel unwrap. -/
theorem serialize_roundtrip (v : JSValue) :
    HybridCache.unwrapDeserialized
      (HybridCache.deserializeValue (HybridCache.serializeValue v)) = v := by
  cases v <;> rfl

theorem memGet_memSet_self (st : HybridCache.MemoryCache) (k : String)
    (x : HybridCache.CacheValue × Int) :
    HybridCache.memGet (HybridCache.memSet st k x) k = some x := by
  induction st with
  | nil => simp [HybridCache.memSet, HybridCache.memGet]
  | cons e rest ih =>
      by_cases h : e.1 = k
      · simp [HybridCache.memSet, HybridCache.memGet, h]
      · simp [HybridCache.memSet, HybridCache.memGet, h, ih]

theorem memGet_filter (p : String × HybridCache.CacheValue × Int → Bool)
    (st : HybridCache.MemoryCache) (k : String) (x : HybridCache.CacheValue × Int)
    (hkeep : p (k, x) = true) (h : HybridCache.memGet st k = some x) :
    HybridCache.memGet (st.filter p) k = some x := by
  induction st with
  | nil => simp [HybridCache.memGet] at h
  | cons e rest ih =>
      by_cases he : e.1 = k
      · simp only [HybridCache.memGet, he, if_pos] at h
        have hex : e = (k, x) := by
          cases e with
          | mk k1 v1 =>
              cases h
              simpa using he
        subst hex
        rw [List.filter_cons, if_pos (by simpa using hkeep)]
        simp [HybridCache.memGet]
      · simp only [HybridCache.memGet, he, if_neg, not_false_iff] at h
        rw [List.filter_cons]
        split
        · simpa [HybridCache.memGet, he] using ih h
        · exact ih h

/-- `cleanupMemoryCache` is the filter keeping not-yet-expired entries. -/
theorem cleanup_eq_filter (now : Int) (st : HybridCache.MemoryCache) :
    HybridCache.cleanupMemoryCache now st = st.filter (fun e => ¬ now > e.2.2) := rfl

/-- After `set` at time `t0` with a non-negative TTL, the stored entry
is found live by any read at `now ≤ t0 + ttl * 1000`. -/
theorem memGet_after_set (st : HybridCache.MemoryCache) (k : String) (v : JSValue)
    (t0 ttl : Int) (threshold : Nat) (httl : 0 ≤ ttl) :
    HybridCache.memGet (HybridCache.set t0 k v ttl threshold st) k =
      some (HybridCache.serializeValue v, t0 + ttl * 1000) := by
  simp only [HybridCache.set]
  split
  · rw [cleanup_eq_filter]
    exact memGet_filter _ _ k _ (by simp; omega) (memGet_memSet_self st k _)
  · exact memGet_memSet_self st k _

/-! ## Claim C1 -/

/-- C1 counterexample: storing the cached-absence value `null` is not
distinguishable from a cache miss.  After `set(key, null, 60)` at time
0, a `get` at time 1000 (well inside the TTL) returns exactly what a
`get` against an empty cache returns (`null`), and `getCachedOrFetch`
at time 1000 invokes the producer again even though the unexpired
absent result is cached. -/
theorem C1_counterexample :
    (HybridCache.get 1000 "stop-profiles"
        (HybridCache.set 0 "stop-profiles" JSValue.vnull 60 100 [])).1 =
      (HybridCache.get 1000 "stop-profiles" []).1 ∧
    (getCachedOrFetch true 100 1000 "stop-profiles" (JSValue.vstr "fetched") 60
        (HybridCache.set 0 "stop-profiles" JSValue.vnull 60 100 [])).2.2 = true := by
  exact ⟨by decide, by decide⟩

/-- C1 (amended): for every stored value other than `null` — in
particular the cached `undefined` absence value — a `get` within the
TTL returns the value itself, which differs from the miss result
(`null`), and `getCachedOrFetch` on such a cached entry returns it
without invoking the producer.  A stored `null`, by contrast,
deserializes to the miss signal itself (see the counterexample). -/
theorem C1_cached_value_distinguishable (v : JSValue) (k : String) (t0 now ttl : Int)
    (threshold : Nat) (st : HybridCache.MemoryCache)
    (hv : v ≠ JSValue.vnull) (httl : 0 ≤ ttl) (hnow : now ≤ t0 + ttl * 1000) :
    (HybridCache.get now k (HybridCache.set t0 k v ttl threshold st)).1 = v ∧
    v ≠ (HybridCache.get now k []).1 ∧
    ∀ fetcherResult,
      (getCachedOrFetch true threshold now k fetcherResult ttl
          (HybridCache.set t0 k v ttl threshold st)).2.2 = false ∧
      (getCachedOrFetch true threshold now k fetcherResult ttl
          (HybridCache.set t0 k v ttl threshold st)).1 = v := by
  have hget : (HybridCache.get now k (HybridCache.set t0 k v ttl threshold st)).1 = v := by
    unfold HybridCache.get
    rw [memGet_after_set st k v t0 ttl threshold httl]
    simp only
    rw [if_neg (by omega)]
    exact serialize_roundtrip v
  refine ⟨hget, ?_, ?_⟩
  · simpa [HybridCache.get, HybridCache.memGet, HybridCache.memDelete] using hv
  · intro fetcherResult
    constructor
    · unfold getCachedOrFetch
      rw [if_pos rfl, if_pos (by simpa [hget] using hv)]
    · unfold getCachedOrFetch
      rw [if_pos rfl, if_pos (by simpa [hget] using hv)]
      exact hget

/-- C1 witness: the cached `undefined` (defined-as-undefined) value at a
concrete key, time and TTL. -/
theorem C1_cached_value_distinguishable_witness :
    (HybridCache.get 5000 "empty-lookup"
        (HybridCache.set 0 "empty-lookup" JSValue.vundefined 60 100 [])).1 =
      JSValue.vundefined ∧
    JSValue.vundefined ≠ (HybridCache.get 5000 "empty-lookup" []).1 :=
  ⟨(C1_cached_value_distinguishable JSValue.vundefined "empty-lookup" 0 5000 60 100 []
      (by decide) (by decide) (by decide)).1,
   (C1_cached_value_distinguishable JSValue.vundefined "empty-lookup" 0 5000 60 100 []
      (by decide) (by decide) (by decide)).2.1⟩

/-! ## Claim C6 -/

/-- The value shapes enumerated by the round-trip property: string,
finite number, boolean, absolute time, ordered-pair collection,
unique-value collection, binary blob, and defined-as-undefined. -/
def isClaimedCacheShape : JSValue → Bool
  | .vstr _ => true
  | .vnum _ => true
  | .vbool _ => true
  | .vdate _ => true
  | .vmap _ => true
  | .vset _ => true
  | .vbuf _ => true
  | .vundefined => true
  | .vnull => false
  | .vjson _ => false

/-- C6: for every value of the claimed shapes, deserializing the
serialized form (and unwrapping the undefined sentinel, as `get` does)
yields the value itself. -/
theorem C6_serialize_deserialize_roundtrip (v : JSValue)
    (h : isClaimedCacheShape v = true) :
    HybridCache.unwrapDeserialized
      (HybridCache.deserializeValue (HybridCache.serializeValue v)) = v := by
  cases v <;> rfl

/-- C6 witness: an ordered-pair collection (`Map`) value with mixed
scalar entries. -/
theorem C6_serialize_deserialize_roundtrip_witness :
    isClaimedCacheShape (JSValue.vmap [(Prim.pstr "51B", Prim.pnum 3)]) = true ∧
    HybridCache.unwrapDeserialized
      (HybridCache.deserializeValue
        (HybridCache.serializeValue (JSValue.vmap [(Prim.pstr "51B", Prim.pnum 3)]))) =
      JSValue.vmap [(Prim.pstr "51B", Prim.pnum 3)] :=
  ⟨by decide,
   C6_serialize_deserialize_roundtrip (JSValue.vmap [(Prim.pstr "51B", Prim.pnum 3)])
     (by decide)⟩

/-! ## Claim C2 -/

/-- C2 counterexample: the `parseActRealtimeTimestamp` of
backend/src/utils/datetime.ts hands the reassembled timezone-less
string to `new Date(...)`, which interprets it in the process-local
zone, so the resulting instant varies with the process zone.  A
process in UTC (offset 0) and one at UTC-7 (offset -420, the
transit operator's daylight offset) resolve the same well-formed input
to different instants — there is no single fixed target timezone. -/
theorem C2_counterexample :
    parseActRealtimeTimestampLocal 0 (some "20250919 22:17") ≠
      parseActRealtimeTimestampLocal (-420) (some "20250919 22:17") := by
  decide

/-- C2 (amended): the repository's timezone-aware
`parseActRealtimeTimestamp` variant (the unnamed module pinning
`America/Los_Angeles`) does satisfy the claim: for every input whose
split/slice/parse pipeline yields in-range fields, and for every zone
offset function `off`, the result is the absolute instant obtained by
reading the fields as UTC (`Date.UTC`), subtracting the zone's offset
at that provisional instant, and subtracting instead the offset
recomputed at the corrected instant — the second correction pass that
stabilizes across a DST boundary.  No process-local zone enters the
computation. -/
theorem C2_fixed_zone_two_pass (off : Int → Int) (s datePart timePart : String)
    (year month day hour minute : Int)
    (hdp : ((jsSplit s ' ')[0]?).getD "" = datePart)
    (htp : ((jsSplit s ' ')[1]?).getD "" = timePart)
    (hlen : jsLength datePart = 8)
    (htpne : timePart ≠ "")
    (hy : jsParseInt (jsSubstring datePart 0 4) = some year)
    (hmo : jsParseInt (jsSubstring datePart 4 6) = some month)
    (hd : jsParseInt (jsSubstring datePart 6 8) = some day)
    (hhr : jsParseInt (((jsSplit timePart ':')[0]?).getD "00") = some hour)
    (hmi : jsParseInt (((jsSplit timePart ':')[1]?).getD "00") = some minute)
    (hm1 : 1 ≤ month) (hm2 : month ≤ 12) (hd1 : 1 ≤ day) (hd2 : day ≤ 31)
    (hh1 : 0 ≤ hour) (hh2 : hour ≤ 23) (hmi1 : 0 ≤ minute) (hmi2 : minute ≤ 59) :
    parseActRealtimeTimestampTZ off (some s) =
      some (dateUTC year month day hour minute -
        off (dateUTC year month day hour minute -
            off (dateUTC year month day hour minute) * 60000) * 60000) := by
  have hdpne : datePart ≠ "" := by
    intro h
    rw [h] at hlen
    simp [jsLength] at hlen
  have hcond : ¬ (datePart = "" ∨ timePart = "" ∨ jsLength datePart ≠ 8) := by
    push_neg
    exact ⟨hdpne, htpne, hlen⟩
  have hadj : tzAdjust off (dateUTC year month day hour minute) =
      dateUTC year month day hour minute -
        off (dateUTC year month day hour minute -
            off (dateUTC year month day hour minute) * 60000) * 60000 := by
    unfold tzAdjust
    by_cases h0 :
        dateUTC year month day hour minute - off (dateUTC year month day hour minute) * 60000 =
          dateUTC year month day hour minute
    · rw [if_pos h0, h0]
      exact h0.symm
    · rw [if_neg h0]
      by_cases h1 :
          dateUTC year month day hour minute -
              off (dateUTC year month day hour minute -
                  off (dateUTC year month day hour minute) * 60000) * 60000 =
            dateUTC year month day hour minute - off (dateUTC year month day hour minute) * 60000
      · rw [if_pos h1]
        exact h1.symm
      · rw [if_neg h1]
  unfold parseActRealtimeTimestampTZ
  simp only [hdp, htp]
  rw [if_neg hcond, hy, hmo, hd, hhr, hmi]
  simp only
  rw [if_neg (by omega)]
  rw [hadj]

/-- A piecewise model of the `America/Los_Angeles` offset around the
2025 spring-forward transition (2025-03-09T10:00Z): PST (-480 minutes)
before, PDT (-420 minutes) after. -/
def losAngelesOffsetSpring2025 (t : Int) : Int :=
  if t < 1741514400000 then -480 else -420

/-- C2 witness: `"20250309 02:30"` lies in the spring-forward gap; the
provisional instant still reads the PST offset, the corrected instant
falls after the transition and reads PDT, and the loop's second pass
settles on the PDT-adjusted instant. -/
theorem C2_fixed_zone_two_pass_witness :
    parseActRealtimeTimestampTZ losAngelesOffsetSpring2025 (some "20250309 02:30") =
      some 1741512600000 := by
  have h := C2_fixed_zone_two_pass losAngelesOffsetSpring2025 "20250309 02:30" "20250309"
    "02:30" 2025 3 9 2 30 (by decide) (by decide) (by decide) (by decide) (by decide)
    (by decide) (by decide) (by decide) (by decide) (by decide) (by decide) (by decide)
    (by decide) (by decide) (by decide) (by decide) (by decide)
  exact h.trans (by decide)

/-! ## Claim C3 -/

/-- The resolvability condition of the claim for a GTFS feed entity: a
vehicle record with a truthy route id, finite coordinates, and a
non-empty vehicle id resolvable from `vehicle.vehicle?.id ?? entity.id`. -/
def gtfsPositionResolvable (entity : FeedEntity) : Bool :=
  match entity.vehicle with
  | none => false
  | some vehicle =>
      jsTruthyStr (vehicle.trip.bind (·.routeId)) &&
      (parseFiniteNumber (vehicle.position.bind (·.latitude))).isSome &&
      (parseFiniteNumber (vehicle.position.bind (·.longitude))).isSome &&
      ((jsNullish (vehicle.vehicle.bind (·.id)) (jsNullish entity.id (some ""))).getD "" ≠ "")

/-- The resolvability condition of the claim for a raw JSON-feed vehicle
record: non-empty trimmed vehicle and route ids, and coordinate strings
that parse to finite numbers. -/
def actPositionResolvable (raw : BusPositionRaw) : Bool :=
  jsTrim raw.vid ≠ "" && jsTrim raw.rt ≠ "" &&
  (parseFiniteNumberStr (some raw.lat)).isSome &&
  (parseFiniteNumberStr (some raw.lon)).isSome

theorem gtfsEntityToPosition_length (now : Int) (hts : Option JSNum) (entity : FeedEntity) :
    (gtfsEntityToPosition now hts entity).length =
      if gtfsPositionResolvable entity then 1 else 0 := by
  unfold gtfsEntityToPosition gtfsPositionResolvable
  cases hv : entity.vehicle with
  | none => simp
  | some vehicle =>
      simp only
      split
      · next rid lat lon heq1 heq2 heq3 =>
          simp only [heq1, heq2, heq3, jsTruthyStr, Option.isSome_some, Bool.and_true,
            Bool.true_and]
          by_cases hrid : rid = "" <;>
            by_cases hvid :
              (jsNullish (vehicle.vehicle.bind (·.id)) (jsNullish entity.id (some ""))).getD
                  "" = "" <;>
            simp [hrid, hvid]
      · next hne =>
          have hpredfalse :
              ¬ ((jsTruthyStr (vehicle.trip.bind (·.routeId)) &&
                  (parseFiniteNumber (vehicle.position.bind (·.latitude))).isSome &&
                  (parseFiniteNumber (vehicle.position.bind (·.longitude))).isSome &&
                  decide
                    ((jsNullish (vehicle.vehicle.bind (·.id))
                      (jsNullish entity.id (some ""))).getD "" ≠ "")) = true) := by
            intro hpred
            simp only [Bool.and_eq_true] at hpred
            obtain ⟨⟨⟨hts1, hs2⟩, hs3⟩, -⟩ := hpred
            obtain ⟨rid, hrid⟩ : ∃ rid, vehicle.trip.bind (·.routeId) = some rid := by
              cases hx : vehicle.trip.bind (·.routeId)
              · rw [hx] at hts1
                simp [jsTruthyStr] at hts1
              · exact ⟨_, rfl⟩
            obtain ⟨lat, hlat⟩ := Option.isSome_iff_exists.mp hs2
            obtain ⟨lon, hlon⟩ := Option.isSome_iff_exists.mp hs3
            exact hne rid lat lon hrid hlat hlon
          rw [if_neg hpredfalse]
          rfl

theorem gtfsEntityToPosition_ids (now : Int) (hts : Option JSNum) (entity : FeedEntity)
    (p : BusPosition) (hp : p ∈ gtfsEntityToPosition now hts entity) :
    p.vehicleId ≠ "" ∧ p.routeId ≠ "" := by
  unfold gtfsEntityToPosition at hp
  cases hv : entity.vehicle <;> rw [hv] at hp
  · simp at hp
  case some vehicle =>
    simp only at hp
    split at hp
    · next rid lat lon heq1 heq2 heq3 =>
        split at hp
        · simp at hp
        · next hguard =>
            push_neg at hguard
            rcases List.mem_singleton.mp hp with rfl
            exact ⟨hguard.2, hguard.1⟩
    · simp at hp

theorem actRawToPosition_isSome (now localOffsetMinutes : Int) (raw : BusPositionRaw) :
    (actRawToPosition now localOffsetMinutes raw).isSome = actPositionResolvable raw := by
  unfold actRawToPosition actPositionResolvable
  split
  · next lat lon heq1 heq2 =>
      simp only [heq1, heq2, Option.isSome_some, Bool.and_true]
      by_cases hvid : jsTrim raw.vid = "" <;> by_cases hrt : jsTrim raw.rt = "" <;>
        simp [hvid, hrt]
  · next hne =>
      rcases Option.eq_none_or_eq_some (parseFiniteNumberStr (some raw.lat)) with h1 | ⟨lat, h1⟩
      · simp [h1]
      · rcases Option.eq_none_or_eq_some (parseFiniteNumberStr (some raw.lon)) with
          h2 | ⟨lon, h2⟩
        · simp [h2]
        · exact (hne lat lon h1 h2).elim

theorem actRawToPosition_ids (now localOffsetMinutes : Int) (raw : BusPositionRaw)
    (p : BusPosition) (hp : actRawToPosition now localOffsetMinutes raw = some p) :
    p.vehicleId ≠ "" ∧ p.routeId ≠ "" := by
  unfold actRawToPosition at hp
  split at hp
  · next lat lon heq1 heq2 =>
      simp only at hp
      split at hp
      · simp at hp
      · next hguard =>
          push_neg at hguard
          cases hp
          exact ⟨hguard.1, hguard.2⟩
  · simp at hp

theorem sum_ite_length {α : Type} (p : α → Bool) (l : List α) :
    (l.map (fun a => if p a then 1 else 0)).sum = (l.filter p).length := by
  induction l with
  | nil => rfl
  | cons a as ih =>
      by_cases h : p a <;> simp [h, ih, List.filter_cons, Nat.add_comm]

theorem filterMap_length_eq_filter {α β : Type} (f : α → Option β) (l : List α) :
    (l.filterMap f).length = (l.filter (fun a => (f a).isSome)).length := by
  induction l with
  | nil => rfl
  | cons a as ih =>
      cases hf : f a <;> simp [List.filterMap_cons, List.filter_cons, hf, ih]

/-- C3 counterexample: `GTFSParser.parseVehiclePositions` does emit a
placeholder.  An entity with coordinates and a route id but no vehicle
id anywhere (neither `entity.id` nor `vehicle.vehicle?.id`) passes its
truthiness filter and is emitted with `vehicleId = 'unknown'`, a value
present nowhere in the record. -/
theorem C3_counterexample :
    (GTFSParser.parseVehiclePositions 0
        { header := none
          entity := some [{ id := none
                            vehicle := some
                              { trip := some
                                  { tripId := none, routeId := some "51B", directionId := none }
                                position := some
                                  { latitude := some (.num 37), longitude := some (.num (-122))
                                    bearing := none, speed := none }
                                currentStopSequence := none
                                timestamp := none
                                vehicle := none }
                            tripUpdate := none
                            alert := none }] }).map ParsedBusPosition.vehicleId = ["unknown"] := by
  decide

/-- C3 (amended): the current position normalizers
(`createBusPositionsFromGtfsFeed` and
`createBusPositionsFromActRealtime`) emit exactly one position per
resolvable record — a record missing a vehicle id, a route id, or a
finite coordinate is dropped from the output — and every emitted
position carries a non-empty vehicle id and route id taken from the
record (its coordinates are finite by construction).  The earlier
`GTFSParser.parseVehiclePositions` instead emits the placeholder
`'unknown'` when the vehicle id is missing (see the counterexample). -/
theorem C3_position_normalizers_drop_unresolvable :
    (∀ (now : Int) (feedMessage : FeedMessage) (p : BusPosition),
        p ∈ createBusPositionsFromGtfsFeed now feedMessage →
          p.vehicleId ≠ "" ∧ p.routeId ≠ "") ∧
    (∀ (now : Int) (feedMessage : FeedMessage),
        (createBusPositionsFromGtfsFeed now feedMessage).length =
          ((feedMessage.entity.getD []).filter gtfsPositionResolvable).length) ∧
    (∀ (now localOffsetMinutes : Int) (rawPositions : List BusPositionRaw)
        (p : BusPosition),
        p ∈ createBusPositionsFromActRealtime now localOffsetMinutes rawPositions →
          p.vehicleId ≠ "" ∧ p.routeId ≠ "") ∧
    (∀ (now localOffsetMinutes : Int) (rawPositions : List BusPositionRaw),
        (createBusPositionsFromActRealtime now localOffsetMinutes rawPositions).length =
          (rawPositions.filter actPositionResolvable).length) := by
  refine ⟨?_, ?_, ?_, ?_⟩
  · intro now feedMessage p hp
    unfold createBusPositionsFromGtfsFeed at hp
    cases hent : feedMessage.entity <;> rw [hent] at hp
    · simp at hp
    case some entities =>
      simp only at hp
      split at hp
      · simp at hp
      · rw [jsSortBy_mem] at hp
        rcases List.mem_flatMap.mp hp with ⟨entity, _, hmem⟩
        exact gtfsEntityToPosition_ids _ _ entity p hmem
  · intro now feedMessage
    unfold createBusPositionsFromGtfsFeed
    cases hent : feedMessage.entity
    · simp
    case some entities =>
      simp only
      split
      · next hlen =>
          rw [List.length_eq_zero] at hlen
          simp [hlen]
      · rw [jsSortBy_length, List.length_flatMap]
        simp only [Option.getD_some]
        rw [← sum_ite_length gtfsPositionResolvable entities]
        congr 1
        apply List.map_congr_left
        intro entity _
        exact gtfsEntityToPosition_length now _ entity
  · intro now localOffsetMinutes rawPositions p hp
    unfold createBusPositionsFromActRealtime at hp
    split at hp
    · simp at hp
    · rw [jsSortBy_mem] at hp
      rcases List.mem_filterMap.mp hp with ⟨raw, _, hmem⟩
      exact actRawToPosition_ids _ _ raw p hmem
  · intro now localOffsetMinutes rawPositions
    unfold createBusPositionsFromActRealtime
    split
    · next hlen =>
        rw [List.length_eq_zero] at hlen
        simp [hlen]
    · rw [jsSortBy_length, filterMap_length_eq_filter]
      congr 1
      apply List.filter_congr
      intro raw _
      exact actRawToPosition_isSome now localOffsetMinutes raw

/-- C3 witness: a feed with two entities — one fully resolvable, one
without a position record — normalizes to exactly one position, and
every emitted position has non-empty identifiers. -/
theorem C3_position_normalizers_drop_unresolvable_witness :
    (createBusPositionsFromGtfsFeed 0
        { header := none
          entity := some
            [{ id := some "e1"
               vehicle := some
                 { trip := some { tripId := none, routeId := some "51B", directionId := none }
                   position := some
                     { latitude := some (.num 37), longitude := some (.num (-122))
                       bearing := none, speed := none }
                   currentStopSequence := none
                   timestamp := none
                   vehicle := some { id := some "bus-7" } }
               tripUpdate := none
               alert := none },
             { id := some "e2"
               vehicle := some
                 { trip := some { tripId := none, routeId := some "51B", directionId := none }
                   position := none
                   currentStopSequence := none
                   timestamp := none
                   vehicle := some { id := some "bus-8" } }
               tripUpdate := none
               alert := none }] }).length = 1 ∧
    ∀ p ∈ createBusPositionsFromGtfsFeed 0
        { header := none
          entity := some
            [{ id := some "e1"
               vehicle := some
                 { trip := some { tripId := none, routeId := some "51B", directionId := none }
                   position := some
                     { latitude := some (.num 37), longitude := some (.num (-122))
                       bearing := none, speed := none }
                   currentStopSequence := none
                   timestamp := none
                   vehicle := some { id := some "bus-7" } }
               tripUpdate := none
               alert := none }] },
      p.vehicleId ≠ "" ∧ p.routeId ≠ "" := by
  constructor
  · rw [C3_position_normalizers_drop_unresolvable.2.1 0 _]
    decide
  · intro p hp
    exact C3_position_normalizers_drop_unresolvable.1 0 _ p hp

/-! ## Claim C9 -/

theorem foldl_invariant {α β : Type} (P : β → Prop) (f : β → α → β) (l : List α) (init : β)
    (hinit : P init) (hstep : ∀ b a, P b → P (f b a)) : P (l.foldl f init) := by
  induction l generalizing init with
  | nil => exact hinit
  | cons a as ih => exact ih (f init a) (hstep init a hinit)

/-- One grouping step of `parseTripUpdates` preserves non-negativity of
every recorded `minutesAway`: the arrival it pushes is floored at zero. -/
theorem tripUpdatesStep_minutes_nonneg (now : Int)
    (stopMetadata : Option (List (String × StopMeta)))
    (acc : List (String × ParsedStopPrediction)) (update : StopUpdateCtx)
    (hinv : ∀ e ∈ acc, ∀ a ∈ e.2.arrivals, 0 ≤ a.minutesAway) :
    ∀ e ∈ GTFSParser.tripUpdatesStep now stopMetadata acc update,
      ∀ a ∈ e.2.arrivals, 0 ≤ a.minutesAway := by
  unfold GTFSParser.tripUpdatesStep
  simp only
  set acc1 := if (assocGet acc update.stopId).isNone then
      assocSet acc update.stopId _ else acc with hacc1
  have hinv1 : ∀ e ∈ acc1, ∀ a ∈ e.2.arrivals, 0 ≤ a.minutesAway := by
    rw [hacc1]
    split
    · intro e he a ha
      rcases assocSet_mem he with rfl | he'
      · simp at ha
      · exact hinv e he' a ha
    · exact hinv
  split
  · next group hgroup =>
      intro e he a ha
      rcases assocSet_mem he with rfl | he'
      · simp only at ha
        rcases List.mem_append.mp ha with hold | hnew
        · exact hinv1 _ (assocGet_mem hgroup) a hold
        · rcases List.mem_singleton.mp hnew with rfl
          exact le_max_left 0 _
      · exact hinv1 e he' a ha
  · exact hinv1

/-- C9: every prediction emitted by any of the three normalizers — the
JSON-feed countdown normalizer, the GTFS trip-update formatter, and the
earlier GTFS parser's trip-update grouping — carries a non-negative
(integer) `minutesAway`: each computation ends in the flooring at
zero. -/
theorem C9_minutes_away_nonneg :
    (∀ (now localOffsetMinutes : Int) (rawPredictions : List BusStopPredictionRaw)
        (isOutbound : Bool) (p : BusStopPrediction),
        p ∈ createBusStopPredictionsFromActRealtime now localOffsetMinutes rawPredictions
            isOutbound → 0 ≤ p.minutesAway) ∧
    (∀ (now : Int) (feedMessage : FeedMessage) (isOutbound : Bool) (p : BusStopPrediction),
        p ∈ createBusStopPredictionsFromGtfsFeed now feedMessage isOutbound →
          0 ≤ p.minutesAway) ∧
    (∀ (now : Int) (feedMessage : FeedMessage)
        (stopMetadata : Option (List (String × StopMeta)))
        (prediction : ParsedStopPrediction) (a : ParsedArrival),
        prediction ∈ GTFSParser.parseTripUpdates now feedMessage stopMetadata →
          a ∈ prediction.arrivals → 0 ≤ a.minutesAway) := by
  refine ⟨?_, ?_, ?_⟩
  · intro now localOffsetMinutes rawPredictions isOutbound p hp
    unfold createBusStopPredictionsFromActRealtime at hp
    split at hp
    · simp at hp
    · rw [jsSortBy_mem] at hp
      rcases List.mem_map.mp hp with ⟨raw, -, rfl⟩
      exact le_max_left 0 _
  · intro now feedMessage isOutbound p hp
    unfold createBusStopPredictionsFromGtfsFeed at hp
    cases hent : feedMessage.entity <;> rw [hent] at hp
    · simp at hp
    · simp only at hp
      rw [jsSortBy_mem] at hp
      rcases List.mem_flatMap.mp hp with ⟨entity, -, hmem⟩
      rcases List.mem_map.mp hmem with ⟨stopTimeUpdate, -, rfl⟩
      exact le_max_left 0 _
  · intro now feedMessage stopMetadata prediction a hpred ha
    unfold GTFSParser.parseTripUpdates at hpred
    cases hent : feedMessage.entity <;> rw [hent] at hpred
    · simp at hpred
    case some entities =>
      simp only at hpred
      rcases List.mem_map.mp hpred with ⟨basePrediction, hbase, rfl⟩
      rcases List.mem_map.mp hbase with ⟨entry, hentry, rfl⟩
      simp only at ha
      rw [jsSortBy_mem] at ha
      have hfold : ∀ (updates : List StopUpdateCtx),
          ∀ e ∈ updates.foldl (GTFSParser.tripUpdatesStep now stopMetadata) [],
            ∀ a ∈ e.2.arrivals, 0 ≤ a.minutesAway := by
        intro updates
        exact foldl_invariant
          (fun acc => ∀ e ∈ acc, ∀ a ∈ e.2.arrivals, 0 ≤ a.minutesAway)
          (GTFSParser.tripUpdatesStep now stopMetadata) updates []
          (by intro e he; simp at he)
          (fun b u hb => tripUpdatesStep_minutes_nonneg now stopMetadata b u hb)
      exact hfold _ entry hentry a ha

/-- C9 witness: a raw JSON-feed prediction whose countdown string is
`"-5"` (a negative computed value) is emitted with `minutesAway = 0`. -/
theorem C9_minutes_away_nonneg_witness :
    (0 : Int) ≤
      (({ vehicleId := "v1", tripId := "t1", arrivalTime := 1758320220000
          departureTime := 1758320220000, minutesAway := 0, isOutbound := true
          distanceToStopFeet := some 100 } : BusStopPrediction)).minutesAway :=
  C9_minutes_away_nonneg.1 0 0
    [{ tmstmp := "20250919 22:10", stpid := "55555", vid := "v1", dstp := .num 100
       rt := "51B", rtdir := "To Amtrak", prdtm := "20250919 22:17", tatripid := "t1"
       prdctdn := "-5", seq := 1 }] true
    { vehicleId := "v1", tripId := "t1", arrivalTime := 1758320220000
      departureTime := 1758320220000, minutesAway := 0, isOutbound := true
      distanceToStopFeet := some 100 }
    (by decide)

/-! ## Claim C10 -/

/-- The claim's route-match condition on a feed entity: its vehicle's
trip carries the route id, or its trip-update's trip does, or its alert
has some informed entity with that route id. -/
def matchesRoute (routeId : String) (entity : FeedEntity) : Bool :=
  ((entity.vehicle.bind (·.trip)).bind (·.routeId) == some routeId) ||
  (entity.tripUpdate.bind (fun tu => tu.trip.routeId) == some routeId) ||
  ((entity.alert.bind (·.informedEntity)).getD []).any
    (fun informed => informed.routeId == some routeId)

/-- C10: both `filterByRoute` implementations leave the header (the
only other field of a feed message) unchanged, and produce as entity
list exactly the sub-list of input entities matching the route — an
entity is in the output iff it is an input entity satisfying the match
condition, the output is a sublist of the input (no entity is modified,
added or reordered), and the two services' implementations are the same
function. -/
theorem C10_filterByRoute_frame :
    (∀ (feed : FeedMessage) (routeId : String),
      (ACTransitService.filterByRoute feed routeId).header = feed.header ∧
      ∃ filtered, (ACTransitService.filterByRoute feed routeId).entity = some filtered ∧
        filtered.Sublist (feed.entity.getD []) ∧
        ∀ entity, entity ∈ filtered ↔
          entity ∈ feed.entity.getD [] ∧ matchesRoute routeId entity = true) ∧
    GTFSRealtimeService.filterByRoute = ACTransitService.filterByRoute := by
  constructor
  · intro feed routeId
    refine ⟨rfl, (feed.entity.getD []).filter (matchesRoute routeId), rfl, ?_, ?_⟩
    · exact List.filter_sublist _
    · intro entity
      constructor
      · intro h
        exact ⟨List.mem_of_mem_filter h, List.of_mem_filter h⟩
      · intro ⟨hmem, hmatch⟩
        exact List.mem_filter.mpr ⟨hmem, hmatch⟩
  · rfl

/-! ## Claim C4 -/

/-- C4: (a) an error in the priming fetch is propagated (wrapped into a
`GraphQLError` when it is not one) as the single terminal signal, and
exactly one upstream fetch is ever consumed, no matter how many
outcomes the upstream could still supply; (b) after a successful first
emission, a non-`NOT_FOUND` error in a later poll emits the empty
snapshot and the loop goes on to consume the remaining polls; (c) a
`NOT_FOUND` `GraphQLError` in a later poll ends the stream with that
error as the single further signal and no further upstream calls. -/
theorem C4_polling_stream_error_semantics :
    (∀ (e : FetchError) (rest : List FetchOutcome),
        subscribeBusStopPredictions (.err e :: rest) =
          ([.failure (wrapPrimingError e)], 1)) ∧
    (∀ (initial : List BusStopPrediction) (rest : List FetchOutcome),
        subscribeBusStopPredictions (.ok initial :: rest) =
          (.snapshot initial :: (runPolls rest).1, (runPolls rest).2 + 1)) ∧
    (∀ (e : FetchError) (rest : List FetchOutcome), isNotFoundError e = false →
        runPolls (.err e :: rest) =
          (.snapshot [] :: (runPolls rest).1, (runPolls rest).2 + 1)) ∧
    (∀ (e : FetchError) (rest : List FetchOutcome), isNotFoundError e = true →
        runPolls (.err e :: rest) = ([.failure e], 1)) := by
  refine ⟨?_, ?_, ?_, ?_⟩
  · intro e rest
    rfl
  · intro initial rest
    rfl
  · intro e rest he
    simp [runPolls, he]
  · intro e rest he
    simp [runPolls, he]

/-- C4 witness, tracing the spec's two scenarios concretely: a
`NOT_FOUND` error injected into the first fetch ends the stream after
exactly one terminal signal and one consumed call; a transient error
injected into the third poll of an otherwise healthy stream yields an
empty third-poll snapshot and the fourth poll still occurs (four calls
consumed). -/
theorem C4_polling_stream_error_semantics_witness :
    subscribeBusStopPredictions
        [.err (.graphql .notFound), .ok [], .ok []] =
      ([.failure (.graphql .notFound)], 1) ∧
    subscribeBusStopPredictions
        [.ok [], .ok [], .err .plain, .ok []] =
      ([.snapshot [], .snapshot [], .snapshot [], .snapshot []], 4) := by
  constructor
  · exact C4_polling_stream_error_semantics.1 (.graphql .notFound) [.ok [], .ok []]
  · rw [C4_polling_stream_error_semantics.2.1 [] [.ok [], .err .plain, .ok []]]
    rw [show runPolls [.ok [], .err .plain, .ok []] =
        (.snapshot [] :: (runPolls [.err .plain, .ok []]).1,
          (runPolls [.err .plain, .ok []]).2 + 1) from rfl]
    rw [C4_polling_stream_error_semantics.2.2.1 .plain [.ok []] (by decide)]
    decide

/-! ## Claims C7 and C8 -/

/-- C7: for a non-empty, within-limit request against each of the three
JSON-feed raw fetchers, an HTTP 404 yields the empty result without an
error, while every other non-success status yields a hard error carrying
that status; in both cases the network call was issued. -/
theorem C7_notFound_empty_other_statuses_throw :
    (∀ (stopCodes : List String) (response : ProfileApiResponse),
        stopCodes.length ≠ 0 → stopCodes.length ≤ 10 →
        (response.status = 404 →
          ACTRealtimeService.fetchBusStopProfilesRaw stopCodes response = (.ok [], true)) ∧
        (respOk response.status = false → response.status ≠ 404 →
          ACTRealtimeService.fetchBusStopProfilesRaw stopCodes response =
            (.error (.http response.status), true))) ∧
    (∀ (stopCodes : List String) (response : PredictionApiResponse),
        stopCodes.length ≠ 0 → stopCodes.length ≤ 10 →
        (response.status = 404 →
          ACTRealtimeService.fetchBusStopPredictionsRaw stopCodes response = (.ok [], true)) ∧
        (respOk response.status = false → response.status ≠ 404 →
          ACTRealtimeService.fetchBusStopPredictionsRaw stopCodes response =
            (.error (.http response.status), true))) ∧
    (∀ (response : VehicleApiResponse),
        (response.status = 404 →
          ACTRealtimeService.fetchBusPositionsRaw response = (.ok [], true)) ∧
        (respOk response.status = false → response.status ≠ 404 →
          ACTRealtimeService.fetchBusPositionsRaw response =
            (.error (.http response.status), true))) := by
  refine ⟨?_, ?_, ?_⟩
  · intro stopCodes response hne hle
    constructor
    · intro h404
      unfold ACTRealtimeService.fetchBusStopProfilesRaw
      rw [if_neg hne, if_neg (by omega), if_pos (by simp [respOk, h404]), if_pos h404]
    · intro hnok h404
      unfold ACTRealtimeService.fetchBusStopProfilesRaw
      rw [if_neg hne, if_neg (by omega), if_pos (by simp [hnok]), if_neg h404]
  · intro stopCodes response hne hle
    constructor
    · intro h404
      unfold ACTRealtimeService.fetchBusStopPredictionsRaw
      rw [if_neg hne, if_neg (by omega), if_pos (by simp [respOk, h404]), if_pos h404]
    · intro hnok h404
      unfold ACTRealtimeService.fetchBusStopPredictionsRaw
      rw [if_neg hne, if_neg (by omega), if_pos (by simp [hnok]), if_neg h404]
  · intro response
    constructor
    · intro h404
      unfold ACTRealtimeService.fetchBusPositionsRaw
      rw [if_pos (by simp [respOk, h404]), if_pos h404]
    · intro hnok h404
      unfold ACTRealtimeService.fetchBusPositionsRaw
      rw [if_pos (by simp [hnok]), if_neg h404]

/-- C7 witness: one stop code against a 404 response and against a 500
response, on the prediction endpoint. -/
theorem C7_notFound_empty_other_statuses_throw_witness :
    ACTRealtimeService.fetchBusStopPredictionsRaw ["55555"]
        { status := 404, prd := none } = (.ok [], true) ∧
    ACTRealtimeService.fetchBusStopPredictionsRaw ["55555"]
        { status := 500, prd := none } = (.error (.http 500), true) :=
  ⟨(C7_notFound_empty_other_statuses_throw.2.1 ["55555"] { status := 404, prd := none }
      (by decide) (by decide)).1 rfl,
   (C7_notFound_empty_other_statuses_throw.2.1 ["55555"] { status := 500, prd := none }
      (by decide) (by decide)).2 (by decide) (by decide)⟩

/-- C8: more than 10 stop codes make both raw batch fetchers throw the
batch-limit error with the network untouched (the reported network flag
is `false`); at most 10 stop codes never produce that error, whatever
the upstream does. -/
theorem C8_batch_limit_fails_fast :
    (∀ (stopCodes : List String) (response : ProfileApiResponse),
        stopCodes.length > 10 →
          ACTRealtimeService.fetchBusStopProfilesRaw stopCodes response =
            (.error .batchLimit, false)) ∧
    (∀ (stopCodes : List String) (response : PredictionApiResponse),
        stopCodes.length > 10 →
          ACTRealtimeService.fetchBusStopPredictionsRaw stopCodes response =
            (.error .batchLimit, false)) ∧
    (∀ (stopCodes : List String) (response : ProfileApiResponse),
        stopCodes.length ≤ 10 →
          (ACTRealtimeService.fetchBusStopProfilesRaw stopCodes response).1 ≠
            .error .batchLimit) ∧
    (∀ (stopCodes : List String) (response : PredictionApiResponse),
        stopCodes.length ≤ 10 →
          (ACTRealtimeService.fetchBusStopPredictionsRaw stopCodes response).1 ≠
            .error .batchLimit) := by
  refine ⟨?_, ?_, ?_, ?_⟩
  · intro stopCodes response hgt
    unfold ACTRealtimeService.fetchBusStopProfilesRaw
    rw [if_neg (by omega), if_pos hgt]
  · intro stopCodes response hgt
    unfold ACTRealtimeService.fetchBusStopPredictionsRaw
    rw [if_neg (by omega), if_pos hgt]
  · intro stopCodes response hle
    unfold ACTRealtimeService.fetchBusStopProfilesRaw
    split
    · simp
    · rw [if_neg (by omega)]
      split
      · split <;> simp
      · split
        · simp
        · split <;> simp
  · intro stopCodes response hle
    unfold ACTRealtimeService.fetchBusStopPredictionsRaw
    split
    · simp
    · rw [if_neg (by omega)]
      split
      · split <;> simp
      · simp

/-- C8 witness: eleven stop codes fail fast without a network call; ten
stop codes do not raise the batch-limit error. -/
theorem C8_batch_limit_fails_fast_witness :
    ACTRealtimeService.fetchBusStopPredictionsRaw
        ["1", "2", "3", "4", "5", "6", "7", "8", "9", "10", "11"]
        { status := 200, prd := some [] } = (.error .batchLimit, false) ∧
    (ACTRealtimeService.fetchBusStopPredictionsRaw
        ["1", "2", "3", "4", "5", "6", "7", "8", "9", "10"]
        { status := 200, prd := some [] }).1 ≠ .error .batchLimit :=
  ⟨C8_batch_limit_fails_fast.2.1 ["1", "2", "3", "4", "5", "6", "7", "8", "9", "10", "11"]
      { status := 200, prd := some [] } (by decide),
   C8_batch_limit_fails_fast.2.2.2 ["1", "2", "3", "4", "5", "6", "7", "8", "9", "10"]
      { status := 200, prd := some [] } (by decide)⟩

/-! ## Claim C5: lemmas about chunking -/

theorem chunksOf10_length (xs : List String) :
    (ACTRealtimeService.chunksOf10 xs).length = (xs.length + 9) / 10 := by
  simp [ACTRealtimeService.chunksOf10]

theorem chunksOf10_size_le (xs : List String) :
    ∀ c ∈ ACTRealtimeService.chunksOf10 xs, c.length ≤ 10 := by
  intro c hc
  rcases List.mem_map.mp hc with ⟨i, -, rfl⟩
  exact List.length_take_le 10 (xs.drop (i * 10))

theorem chunksOf10_cons (xs : List String) (h : xs ≠ []) :
    ACTRealtimeService.chunksOf10 xs =
      xs.take 10 :: ACTRealtimeService.chunksOf10 (xs.drop 10) := by
  have hlen : 1 ≤ xs.length := List.length_pos.mpr h
  unfold ACTRealtimeService.chunksOf10
  have hceil : (xs.length + 9) / 10 = ((xs.drop 10).length + 9) / 10 + 1 := by
    simp only [List.length_drop]
    omega
  rw [hceil, List.range_succ_eq_map, List.map_cons]
  simp only [Nat.zero_mul, List.drop_zero, List.map_map]
  congr 1
  apply List.map_congr_left
  intro i _
  simp only [Function.comp]
  rw [List.drop_drop]
  congr 2
  omega

theorem chunksOf10_flatten (xs : List String) :
    (ACTRealtimeService.chunksOf10 xs).flatten = xs := by
  by_cases h : xs = []
  · subst h
    rfl
  · rw [chunksOf10_cons xs h, List.flatten_cons, chunksOf10_flatten (xs.drop 10)]
    exact List.take_append_drop 10 xs
termination_by xs.length
decreasing_by
  have : 1 ≤ xs.length := List.length_pos.mpr h
  simp only [List.length_drop]
  omega

theorem chunksOf10_ne_nil (xs : List String) :
    ∀ c ∈ ACTRealtimeService.chunksOf10 xs, c ≠ [] := by
  intro c hc
  rcases List.mem_map.mp hc with ⟨i, hi, rfl⟩
  rw [List.mem_range] at hi
  apply List.ne_nil_of_length_pos
  simp only [List.length_take, List.length_drop]
  omega

/-! ## Claim C5: lemmas about the per-chunk maps and the merge -/

theorem assocGet_eq_none {β : Type} (l : List (String × β)) (code : String)
    (h : ∀ x ∈ l, x.1 ≠ code) : assocGet l code = none := by
  induction l with
  | nil => rfl
  | cons e rest ih =>
      have he : e.1 ≠ code := h e (List.mem_cons_self e rest)
      simp only [assocGet, he, if_neg, not_false_iff]
      exact ih (fun x hx => h x (List.mem_cons_of_mem e hx))

/-- Lookup through the map built by repeated `Map.set` of `val c` for
each requested code (the prediction fetcher's response mapping). -/
theorem assocGet_foldl_setAll {β : Type} (val : String → β) (codes : List String)
    (acc : List (String × β)) (code : String) :
    assocGet (codes.foldl (fun m c => assocSet m c (val c)) acc) code =
      if code ∈ codes then some (val code) else assocGet acc code := by
  induction codes generalizing acc with
  | nil => simp
  | cons c cs ih =>
      rw [List.foldl_cons, ih]
      by_cases hmem : code ∈ cs
      · simp [hmem]
      · by_cases heq : code = c
        · subst heq
          simp [hmem, assocGet_set_self]
        · simp [hmem, heq, assocGet_set_ne acc c code _ heq]

/-- Lookup through the map built by conditional `Map.set` (the profile
fetcher's response mapping, which skips codes the response lacks). -/
theorem assocGet_foldl_setIfFound {β : Type} (val : String → Option β) (codes : List String)
    (acc : List (String × β)) (code : String) :
    assocGet (codes.foldl (fun m c => setIfFound m c (val c)) acc) code =
      if code ∈ codes ∧ (val code).isSome then val code else assocGet acc code := by
  induction codes generalizing acc with
  | nil => simp
  | cons c cs ih =>
      rw [List.foldl_cons, ih]
      by_cases hmem : code ∈ cs ∧ (val code).isSome
      · simp [hmem, List.mem_cons.mpr (Or.inr hmem.1), hmem.2]
      · by_cases heq : code = c
        · subst heq
          cases hval : val code with
          | none => simp [hmem, hval, setIfFound]
          | some v =>
              simp only [List.mem_cons, true_or, hval, Option.isSome_some, and_true, if_pos,
                true_and, setIfFound]
              rw [if_neg (by simpa [hval] using hmem), assocGet_set_self]
        · have hcons : code ∈ c :: cs ↔ code ∈ cs := by simp [List.mem_cons, heq]
          rw [if_neg hmem, if_neg (fun hh => hmem ⟨hcons.mp hh.1, hh.2⟩)]
          cases hval : val c with
          | none => simp [hval, setIfFound]
          | some v =>
              simp only [hval, setIfFound]
              exact assocGet_set_ne acc c code v heq

/-- Keys added by the conditional-set fold come from the requested
codes. -/
theorem foldl_setIfFound_mem {β : Type} (val : String → Option β) (codes : List String)
    (acc : List (String × β)) (x : String × β)
    (hx : x ∈ codes.foldl (fun m c => setIfFound m c (val c)) acc) :
    x ∈ acc ∨ x.1 ∈ codes := by
  induction codes generalizing acc with
  | nil => exact Or.inl hx
  | cons c cs ih =>
      rw [List.foldl_cons] at hx
      rcases ih _ hx with hacc | hcs
      · cases hval : val c with
        | none =>
            rw [hval] at hacc
            exact Or.inl hacc
        | some v =>
            rw [hval] at hacc
            rcases assocSet_mem hacc with rfl | h'
            · exact Or.inr (List.mem_cons_self c cs)
            · exact Or.inl h'
      · exact Or.inr (List.mem_cons_of_mem c hcs)

/-- Keys added by the unconditional-set fold come from the requested
codes. -/
theorem foldl_setAll_mem {β : Type} (val : String → β) (codes : List String)
    (acc : List (String × β)) (x : String × β)
    (hx : x ∈ codes.foldl (fun m c => assocSet m c (val c)) acc) : x ∈ acc ∨ x.1 ∈ codes := by
  induction codes generalizing acc with
  | nil => exact Or.inl hx
  | cons c cs ih =>
      rw [List.foldl_cons] at hx
      rcases ih _ hx with hacc | hcs
      · rcases assocSet_mem hacc with rfl | h'
        · exact Or.inr (List.mem_cons_self c cs)
        · exact Or.inl h'
      · exact Or.inr (List.mem_cons_of_mem c hcs)

/-- `Map.set` either replaces an existing key or appends a fresh one. -/
theorem assocSet_keys {β : Type} (l : List (String × β)) (k : String) (v : β) :
    (assocSet l k v).map Prod.fst =
      if k ∈ l.map Prod.fst then l.map Prod.fst else l.map Prod.fst ++ [k] := by
  induction l with
  | nil => simp [assocSet]
  | cons e rest ih =>
      by_cases he : e.1 = k
      · simp [assocSet, he]
      · simp only [assocSet, he, if_neg, not_false_iff, List.map_cons, ih]
        by_cases hmem : k ∈ rest.map Prod.fst
        · simp [hmem, Ne.symm he]
        · simp [hmem, Ne.symm he]

theorem assocSet_keys_nodup {β : Type} (l : List (String × β)) (k : String) (v : β)
    (h : (l.map Prod.fst).Nodup) : ((assocSet l k v).map Prod.fst).Nodup := by
  rw [assocSet_keys]
  split
  · exact h
  · next hnot =>
      rw [List.nodup_append]
      exact ⟨h, List.nodup_singleton k, by simpa [List.disjoint_singleton] using hnot⟩

/-- The per-chunk maps have pairwise-distinct keys. -/
theorem foldl_setIfFound_keys_nodup {β : Type} (val : String → Option β) (codes : List String)
    (acc : List (String × β)) (h : (acc.map Prod.fst).Nodup) :
    ((codes.foldl (fun m c => setIfFound m c (val c)) acc).map Prod.fst).Nodup := by
  induction codes generalizing acc with
  | nil => exact h
  | cons c cs ih =>
      rw [List.foldl_cons]
      apply ih
      cases hval : val c with
      | none => simpa [setIfFound, hval] using h
      | some v =>
          simp only [setIfFound, hval]
          exact assocSet_keys_nodup acc c v h

theorem foldl_setAll_keys_nodup {β : Type} (val : String → β) (codes : List String)
    (acc : List (String × β)) (h : (acc.map Prod.fst).Nodup) :
    ((codes.foldl (fun m c => assocSet m c (val c)) acc).map Prod.fst).Nodup := by
  induction codes generalizing acc with
  | nil => exact h
  | cons c cs ih =>
      rw [List.foldl_cons]
      exact ih _ (assocSet_keys_nodup acc c (val c) h)

/-- Merging an entry list into a map does not disturb keys the entries
do not carry. -/
theorem assocGet_foldl_insertAll_not_mem {β : Type} (entries : List (String × β))
    (m : List (String × β)) (code : String) (h : ∀ x ∈ entries, x.1 ≠ code) :
    assocGet (entries.foldl (fun m e => assocSet m e.1 e.2) m) code = assocGet m code := by
  induction entries generalizing m with
  | nil => rfl
  | cons e rest ih =>
      rw [List.foldl_cons, ih _ (fun x hx => h x (List.mem_cons_of_mem e hx))]
      exact assocGet_set_ne m e.1 code e.2 (Ne.symm (h e (List.mem_cons_self e rest)))

/-- Merging an entry list with pairwise-distinct keys into a map makes
lookups read the entry list first and the previous map second. -/
theorem assocGet_foldl_insertAll {β : Type} (entries : List (String × β))
    (m : List (String × β)) (code : String) (hnd : (entries.map Prod.fst).Nodup) :
    assocGet (entries.foldl (fun m e => assocSet m e.1 e.2) m) code =
      match assocGet entries code with
      | some v => some v
      | none => assocGet m code := by
  induction entries generalizing m with
  | nil => simp [assocGet]
  | cons e rest ih =>
      rw [List.map_cons, List.nodup_cons] at hnd
      rw [List.foldl_cons, ih _ hnd.2]
      by_cases heq : e.1 = code
      · have hnone : assocGet rest code = none := by
          apply assocGet_eq_none
          intro x hx hx1
          exact hnd.1 (heq ▸ hx1 ▸ List.mem_map_of_mem Prod.fst hx)
        rw [hnone]
        simp only [assocGet, heq, if_pos]
        exact assocGet_set_self m code e.2
      · simp only [assocGet, heq, if_neg, not_false_iff]
        cases hrest : assocGet rest code
        · simp only
          exact assocGet_set_ne m e.1 code e.2 (fun hh => heq hh.symm)
        · simp only

/-- One step of the chunk-merging fold: skip a failed chunk, merge a
successful chunk's entries. -/
def mergeStep {β : Type} (f : List String → Option (List (String × β)))
    (m : List (String × β)) (chunk : List String) : List (String × β) :=
  match f chunk with
  | none => m
  | some entries => entries.foldl (fun m e => assocSet m e.1 e.2) m

/-- Lookup through the chunk-merging fold: a code untouched by every
chunk keeps its previous binding. -/
theorem mergeFold_untouched {β : Type} (f : List String → Option (List (String × β)))
    (chunks : List (List String)) (code : String) (m : List (String × β))
    (hkeys : ∀ c' ∈ chunks, ∀ entries, f c' = some entries → ∀ x ∈ entries, x.1 ∈ c')
    (hout : ∀ c' ∈ chunks, code ∉ c') :
    assocGet (chunks.foldl (mergeStep f) m) code = assocGet m code := by
  induction chunks generalizing m with
  | nil => rfl
  | cons c cs ih =>
      rw [List.foldl_cons,
        ih _ (fun c' hc' => hkeys c' (List.mem_cons_of_mem c hc'))
          (fun c' hc' => hout c' (List.mem_cons_of_mem c hc'))]
      cases hf : f c with
      | none => simp [mergeStep, hf]
      | some entries =>
          simp only [mergeStep, hf]
          apply assocGet_foldl_insertAll_not_mem
          intro x hx hx1
          exact hout c (List.mem_cons_self c cs)
            (hx1 ▸ hkeys c (List.mem_cons_self c cs) entries hf x hx)

/-- Lookup through the chunk-merging fold, for a code of one of the
chunks: the merged map answers exactly what that chunk's own entry list
answers — a failed chunk (no entry list) contributes nothing, and
sibling chunks cannot disturb the binding. -/
theorem mergeFold_lookup {β : Type} (f : List String → Option (List (String × β)))
    (chunks : List (List String)) (code : String) (c : List String)
    (hkeys : ∀ c' ∈ chunks, ∀ entries, f c' = some entries → ∀ x ∈ entries, x.1 ∈ c')
    (hnodup : ∀ c' ∈ chunks, ∀ entries, f c' = some entries →
        ((entries.map Prod.fst).Nodup))
    (hnd : chunks.flatten.Nodup) (hc : c ∈ chunks) (hcode : code ∈ c) :
    assocGet (chunks.foldl (mergeStep f) []) code =
      (f c).bind (fun entries => assocGet entries code) := by
  obtain ⟨pre, post, rfl⟩ := List.append_of_mem hc
  have hndflat := hnd
  rw [List.flatten_append, List.flatten_cons, List.nodup_append] at hndflat
  obtain ⟨hndpre, hndrest, hdisj⟩ := hndflat
  rw [List.nodup_append] at hndrest
  obtain ⟨-, hndpost, hdisj2⟩ := hndrest
  have hpreout : ∀ c' ∈ pre, code ∉ c' := by
    intro c' hc' hcode'
    exact hdisj (List.mem_flatten.mpr ⟨c', hc', hcode'⟩) (List.mem_append_left _ hcode)
  have hpostout : ∀ c' ∈ post, code ∉ c' := by
    intro c' hc' hcode'
    exact hdisj2 hcode (List.mem_flatten.mpr ⟨c', hc', hcode'⟩)
  have hkeyspre : ∀ c' ∈ pre, ∀ entries, f c' = some entries → ∀ x ∈ entries, x.1 ∈ c' :=
    fun c' hc' => hkeys c' (List.mem_append_left _ hc')
  have hkeyspost : ∀ c' ∈ post, ∀ entries, f c' = some entries → ∀ x ∈ entries, x.1 ∈ c' :=
    fun c' hc' => hkeys c' (List.mem_append_right _ (List.mem_cons_of_mem c hc'))
  rw [List.foldl_append, List.foldl_cons]
  have hpre : assocGet (pre.foldl (mergeStep f) []) code = none := by
    rw [mergeFold_untouched f pre code [] hkeyspre hpreout]
    rfl
  cases hf : f c with
  | none =>
      simp only [mergeStep, hf, Option.none_bind]
      rw [mergeFold_untouched f post code _ hkeyspost hpostout]
      exact hpre
  | some entries =>
      simp only [mergeStep, hf, Option.some_bind]
      rw [mergeFold_untouched f post code _ hkeyspost hpostout]
      rw [assocGet_foldl_insertAll entries _ code
        (hnodup c (List.mem_append_right _ (List.mem_cons_self c post)) entries hf)]
      cases hge : assocGet entries code
      · simp only
        exact hpre
      · simp only

theorem foldl_ext {α β : Type} (f g : β → α → β) (h : ∀ b a, f b a = g b a)
    (l : List α) (init : β) : l.foldl f init = l.foldl g init := by
  induction l generalizing init with
  | nil => rfl
  | cons a as ih => rw [List.foldl_cons, List.foldl_cons, h, ih]

/-- The per-chunk operation of the batched prediction fetcher, as the
chunk-to-result function the merge analysis abstracts over: `none` is
the caught per-chunk failure, `some` the chunk's own map. -/
def predChunkFetch (respFor : List String → PredictionApiResponse) (chunk : List String) :
    Option (List (String × List BusStopPredictionRaw)) :=
  match (ACTRealtimeService.fetchBusStopPredictionsRaw (ACTRealtimeService.jsSortStrings chunk)
      (respFor (ACTRealtimeService.jsSortStrings chunk))).1 with
  | .error _ => none
  | .ok chunkMap => some chunkMap

/-- The per-chunk operation of the batched profile fetcher. -/
def profChunkFetch (respFor : List String → ProfileApiResponse) (chunk : List String) :
    Option (List (String × BusStopProfileRaw)) :=
  match (ACTRealtimeService.fetchBusStopProfilesRaw (ACTRealtimeService.jsSortStrings chunk)
      (respFor (ACTRealtimeService.jsSortStrings chunk))).1 with
  | .error _ => none
  | .ok chunkMap => some chunkMap

theorem fetchBusStopPredictions_eq_mergeFold
    (respFor : List String → PredictionApiResponse) (xs : List String) :
    ACTRealtimeService.fetchBusStopPredictions respFor xs =
      (ACTRealtimeService.chunksOf10 xs).foldl (mergeStep (predChunkFetch respFor)) [] := by
  unfold ACTRealtimeService.fetchBusStopPredictions
  split
  · next hlen =>
      rw [List.length_eq_zero] at hlen
      subst hlen
      rfl
  · apply foldl_ext
    intro m chunk
    simp only [mergeStep, predChunkFetch]
    cases hr : (ACTRealtimeService.fetchBusStopPredictionsRaw
        (ACTRealtimeService.jsSortStrings chunk)
        (respFor (ACTRealtimeService.jsSortStrings chunk))).1 <;> simp [hr]

theorem fetchBusStopProfiles_eq_mergeFold
    (respFor : List String → ProfileApiResponse) (xs : List String) :
    ACTRealtimeService.fetchBusStopProfiles respFor xs =
      (ACTRealtimeService.chunksOf10 xs).foldl (mergeStep (profChunkFetch respFor)) [] := by
  unfold ACTRealtimeService.fetchBusStopProfiles
  split
  · next hlen =>
      rw [List.length_eq_zero] at hlen
      subst hlen
      rfl
  · apply foldl_ext
    intro m chunk
    simp only [mergeStep, profChunkFetch]
    cases hr : (ACTRealtimeService.fetchBusStopProfilesRaw
        (ACTRealtimeService.jsSortStrings chunk)
        (respFor (ACTRealtimeService.jsSortStrings chunk))).1 with
    | error e => simp [hr]
    | ok chunkMap =>
        simp only [hr]
        cases chunkMap with
        | nil => simp
        | cons e rest => simp

theorem fetchBusStopPredictionsRaw_ok (codes : List String) (resp : PredictionApiResponse)
    (hne : codes.length ≠ 0) (hle : codes.length ≤ 10) (hok : respOk resp.status = true) :
    ACTRealtimeService.fetchBusStopPredictionsRaw codes resp =
      (.ok (codes.foldl (fun m c => assocSet m c
        (match resp.prd with
         | some predictions => predictions.filter (fun p => p.stpid = c)
         | none => [])) []), true) := by
  unfold ACTRealtimeService.fetchBusStopPredictionsRaw
  rw [if_neg hne, if_neg (by omega), if_neg (by simp [hok])]

theorem fetchBusStopProfilesRaw_ok (codes : List String) (resp : ProfileApiResponse)
    (hne : codes.length ≠ 0) (hle : codes.length ≤ 10) (hok : respOk resp.status = true)
    (stops : List BusStopProfileRaw) (hstops : resp.stops = some stops) (hsne : stops ≠ []) :
    ACTRealtimeService.fetchBusStopProfilesRaw codes resp =
      (.ok (codes.foldl (fun m c =>
        setIfFound m c (stops.find? (fun stop => stop.stpid = c))) []), true) := by
  unfold ACTRealtimeService.fetchBusStopProfilesRaw
  rw [if_neg hne, if_neg (by omega), if_neg (by simp [hok]), hstops]
  simp only
  rw [if_neg (by simpa [List.length_eq_zero] using hsne)]

/-- What the prediction per-chunk operation can yield: keys from the
chunk, pairwise distinct; the chunk's own filtered data per code on a
2xx response; the empty map on a non-2xx (404) response. -/
theorem predChunkFetch_spec (respFor : List String → PredictionApiResponse)
    (c : List String) (hle : c.length ≤ 10) (hne : c ≠ [])
    (entries : List (String × List BusStopPredictionRaw))
    (hf : predChunkFetch respFor c = some entries) :
    (∀ x ∈ entries, x.1 ∈ c) ∧ ((entries.map Prod.fst).Nodup) ∧
    (respOk (respFor (ACTRealtimeService.jsSortStrings c)).status = true →
      ∀ code ∈ c, assocGet entries code =
        some (match (respFor (ACTRealtimeService.jsSortStrings c)).prd with
              | some predictions => predictions.filter (fun p => p.stpid = code)
              | none => [])) ∧
    (respOk (respFor (ACTRealtimeService.jsSortStrings c)).status = false → entries = []) := by
  have hslen : (ACTRealtimeService.jsSortStrings c).length = c.length :=
    jsSortBy_length _ c
  have hsne : (ACTRealtimeService.jsSortStrings c).length ≠ 0 := by
    rw [hslen]
    simpa [List.length_eq_zero] using hne
  have hsmem : ∀ code, code ∈ ACTRealtimeService.jsSortStrings c ↔ code ∈ c :=
    fun code => jsSortBy_mem _ c code
  unfold predChunkFetch at hf
  by_cases hok : respOk (respFor (ACTRealtimeService.jsSortStrings c)).status = true
  · rw [fetchBusStopPredictionsRaw_ok _ _ hsne (by omega) hok] at hf
    simp only [Option.some.injEq] at hf
    subst hf
    refine ⟨?_, ?_, ?_, ?_⟩
    · intro x hx
      rcases foldl_setAll_mem _ _ _ x hx with h | h
      · simp at h
      · exact (hsmem x.1).mp h
    · exact foldl_setAll_keys_nodup _ _ [] (by simp)
    · intro _ code hcode
      rw [assocGet_foldl_setAll]
      rw [if_pos ((hsmem code).mpr hcode)]
    · intro hfalse
      rw [hok] at hfalse
      cases hfalse
  · have hok' : respOk (respFor (ACTRealtimeService.jsSortStrings c)).status = false :=
      Bool.eq_false_iff.mpr hok
    unfold ACTRealtimeService.fetchBusStopPredictionsRaw at hf
    rw [if_neg hsne, if_neg (by omega), if_pos (by simp [hok'])] at hf
    by_cases h404 : (respFor (ACTRealtimeService.jsSortStrings c)).status = 404
    · rw [if_pos h404] at hf
      simp only [Option.some.injEq] at hf
      subst hf
      refine ⟨by simp, by simp, ?_, fun _ => rfl⟩
      intro htrue
      rw [hok'] at htrue
      cases htrue
    · rw [if_neg h404] at hf
      cases hf

/-- What the profile per-chunk operation can yield. -/
theorem profChunkFetch_spec (respFor : List String → ProfileApiResponse)
    (c : List String) (hle : c.length ≤ 10) (hne : c ≠ [])
    (entries : List (String × BusStopProfileRaw))
    (hf : profChunkFetch respFor c = some entries) :
    (∀ x ∈ entries, x.1 ∈ c) ∧ ((entries.map Prod.fst).Nodup) ∧
    (respOk (respFor (ACTRealtimeService.jsSortStrings c)).status = true →
      ∀ code ∈ c, assocGet entries code =
        ((respFor (ACTRealtimeService.jsSortStrings c)).stops.getD []).find?
          (fun stop => stop.stpid = code)) ∧
    (respOk (respFor (ACTRealtimeService.jsSortStrings c)).status = false → entries = []) := by
  have hslen : (ACTRealtimeService.jsSortStrings c).length = c.length :=
    jsSortBy_length _ c
  have hsne : (ACTRealtimeService.jsSortStrings c).length ≠ 0 := by
    rw [hslen]
    simpa [List.length_eq_zero] using hne
  have hsmem : ∀ code, code ∈ ACTRealtimeService.jsSortStrings c ↔ code ∈ c :=
    fun code => jsSortBy_mem _ c code
  unfold profChunkFetch at hf
  by_cases hok : respOk (respFor (ACTRealtimeService.jsSortStrings c)).status = true
  · cases hstops : (respFor (ACTRealtimeService.jsSortStrings c)).stops with
    | none =>
        unfold ACTRealtimeService.fetchBusStopProfilesRaw at hf
        rw [if_neg hsne, if_neg (by omega), if_neg (by simp [hok]), hstops] at hf
        simp at hf
        subst hf
        refine ⟨by simp, by simp, ?_, fun _ => rfl⟩
        intro _ code hcode
        simp [hstops, assocGet]
    | some stops =>
        by_cases hsnil : stops = []
        · subst hsnil
          unfold ACTRealtimeService.fetchBusStopProfilesRaw at hf
          rw [if_neg hsne, if_neg (by omega), if_neg (by simp [hok]), hstops] at hf
          simp at hf
          subst hf
          refine ⟨by simp, by simp, ?_, fun _ => rfl⟩
          intro _ code hcode
          simp [hstops, assocGet]
        · rw [fetchBusStopProfilesRaw_ok _ _ hsne (by omega) hok stops hstops hsnil] at hf
          simp only [Option.some.injEq] at hf
          subst hf
          refine ⟨?_, ?_, ?_, ?_⟩
          · intro x hx
            rcases foldl_setIfFound_mem
                (fun stopCode => stops.find? (fun stop => stop.stpid = stopCode))
                (ACTRealtimeService.jsSortStrings c) [] x hx with h | h
            · simp at h
            · exact (hsmem x.1).mp h
          · exact foldl_setIfFound_keys_nodup
              (fun stopCode => stops.find? (fun stop => stop.stpid = stopCode)) _ [] (by simp)
          · intro _ code hcode
            rw [assocGet_foldl_setIfFound
              (fun stopCode => stops.find? (fun stop => stop.stpid = stopCode))
              (ACTRealtimeService.jsSortStrings c) [] code]
            simp only [hstops, Option.getD_some]
            by_cases hv : (stops.find? (fun stop => stop.stpid = code)).isSome
            · rw [if_pos ⟨(hsmem code).mpr hcode, hv⟩]
            · rw [if_neg (by simp [hv]), Option.not_isSome_iff_eq_none.mp hv]
              rfl
          · intro hfalse
            rw [hok] at hfalse
            cases hfalse
  · have hok' : respOk (respFor (ACTRealtimeService.jsSortStrings c)).status = false :=
      Bool.eq_false_iff.mpr hok
    unfold ACTRealtimeService.fetchBusStopProfilesRaw at hf
    rw [if_neg hsne, if_neg (by omega), if_pos (by simp [hok'])] at hf
    by_cases h404 : (respFor (ACTRealtimeService.jsSortStrings c)).status = 404
    · rw [if_pos h404] at hf
      simp only [Option.some.injEq] at hf
      subst hf
      refine ⟨by simp, by simp, ?_, fun _ => rfl⟩
      intro htrue
      rw [hok'] at htrue
      cases htrue
    · rw [if_neg h404] at hf
      cases hf

/-- C5: (1) the batched fetchers partition any identifier list into
`⌈N/10⌉` chunks, each non-empty of size at most 10, whose concatenation
is the input; (2) the merged prediction map never contains an
identifier that was not in the input; (3)/(4) for any identifier of any
chunk, the merged map of either batched fetcher answers exactly the
dispatching chunk's own response data when that chunk's request
returned 2xx, and nothing when the chunk's request failed (threw) or
returned 404 — so a chunk's failure is invisible to its siblings and
never contributes partial data. -/
theorem C5_chunking_and_merge :
    (∀ xs : List String,
        (ACTRealtimeService.chunksOf10 xs).length = (xs.length + 9) / 10 ∧
        (∀ c ∈ ACTRealtimeService.chunksOf10 xs, c.length ≤ 10 ∧ c ≠ []) ∧
        (ACTRealtimeService.chunksOf10 xs).flatten = xs) ∧
    (∀ (respFor : List String → PredictionApiResponse) (xs : List String) (code : String),
        code ∉ xs →
        assocGet (ACTRealtimeService.fetchBusStopPredictions respFor xs) code = none) ∧
    (∀ (respFor : List String → PredictionApiResponse) (xs : List String), xs.Nodup →
        ∀ c ∈ ACTRealtimeService.chunksOf10 xs, ∀ code ∈ c,
        assocGet (ACTRealtimeService.fetchBusStopPredictions respFor xs) code =
          (if respOk (respFor (ACTRealtimeService.jsSortStrings c)).status then
            some (match (respFor (ACTRealtimeService.jsSortStrings c)).prd with
                  | some predictions => predictions.filter (fun p => p.stpid = code)
                  | none => [])
           else none)) ∧
    (∀ (respFor : List String → ProfileApiResponse) (xs : List String), xs.Nodup →
        ∀ c ∈ ACTRealtimeService.chunksOf10 xs, ∀ code ∈ c,
        assocGet (ACTRealtimeService.fetchBusStopProfiles respFor xs) code =
          (if respOk (respFor (ACTRealtimeService.jsSortStrings c)).status then
            ((respFor (ACTRealtimeService.jsSortStrings c)).stops.getD []).find?
              (fun stop => stop.stpid = code)
           else none)) := by
  refine ⟨?_, ?_, ?_, ?_⟩
  · intro xs
    exact ⟨chunksOf10_length xs,
      fun c hc => ⟨chunksOf10_size_le xs c hc, chunksOf10_ne_nil xs c hc⟩,
      chunksOf10_flatten xs⟩
  · intro respFor xs code hcode
    rw [fetchBusStopPredictions_eq_mergeFold]
    rw [mergeFold_untouched (predChunkFetch respFor) (ACTRealtimeService.chunksOf10 xs) code []
      (fun c' hc' entries hfe =>
        (predChunkFetch_spec respFor c' (chunksOf10_size_le xs c' hc')
          (chunksOf10_ne_nil xs c' hc') entries hfe).1)
      (fun c' hc' hmem =>
        hcode ((chunksOf10_flatten xs) ▸ List.mem_flatten.mpr ⟨c', hc', hmem⟩))]
    rfl
  · intro respFor xs hnd c hc code hcode
    have hle10 : c.length ≤ 10 := chunksOf10_size_le xs c hc
    have hcne : c ≠ [] := chunksOf10_ne_nil xs c hc
    have hslen : (ACTRealtimeService.jsSortStrings c).length = c.length :=
      jsSortBy_length _ c
    have hsne : (ACTRealtimeService.jsSortStrings c).length ≠ 0 := by
      rw [hslen]
      simpa [List.length_eq_zero] using hcne
    rw [fetchBusStopPredictions_eq_mergeFold]
    rw [mergeFold_lookup (predChunkFetch respFor) (ACTRealtimeService.chunksOf10 xs) code c
      (fun c' hc' entries hfe =>
        (predChunkFetch_spec respFor c' (chunksOf10_size_le xs c' hc')
          (chunksOf10_ne_nil xs c' hc') entries hfe).1)
      (fun c' hc' entries hfe =>
        (predChunkFetch_spec respFor c' (chunksOf10_size_le xs c' hc')
          (chunksOf10_ne_nil xs c' hc') entries hfe).2.1)
      (by rw [chunksOf10_flatten xs]; exact hnd) hc hcode]
    cases hf : predChunkFetch respFor c with
    | none =>
        have hokf : respOk (respFor (ACTRealtimeService.jsSortStrings c)).status = false := by
          rcases Bool.eq_false_or_eq_true
              (respOk (respFor (ACTRealtimeService.jsSortStrings c)).status) with h | h
          · exfalso
            have hraw := fetchBusStopPredictionsRaw_ok (ACTRealtimeService.jsSortStrings c)
              (respFor (ACTRealtimeService.jsSortStrings c)) hsne
              (by rw [hslen]; exact hle10) h
            unfold predChunkFetch at hf
            rw [hraw] at hf
            cases hf
          · exact h
        simp only [Option.none_bind]
        rw [if_neg (by simp [hokf])]
    | some entries =>
        have hspec := predChunkFetch_spec respFor c hle10 hcne entries hf
        simp only [Option.some_bind]
        by_cases hok : respOk (respFor (ACTRealtimeService.jsSortStrings c)).status = true
        · rw [hspec.2.2.1 hok code hcode, if_pos hok]
        · have hempty := hspec.2.2.2 (Bool.eq_false_iff.mpr hok)
          subst hempty
          rw [if_neg hok]
          rfl
  · intro respFor xs hnd c hc code hcode
    have hle10 : c.length ≤ 10 := chunksOf10_size_le xs c hc
    have hcne : c ≠ [] := chunksOf10_ne_nil xs c hc
    have hslen : (ACTRealtimeService.jsSortStrings c).length = c.length :=
      jsSortBy_length _ c
    have hsne : (ACTRealtimeService.jsSortStrings c).length ≠ 0 := by
      rw [hslen]
      simpa [List.length_eq_zero] using hcne
    rw [fetchBusStopProfiles_eq_mergeFold]
    rw [mergeFold_lookup (profChunkFetch respFor) (ACTRealtimeService.chunksOf10 xs) code c
      (fun c' hc' entries hfe =>
        (profChunkFetch_spec respFor c' (chunksOf10_size_le xs c' hc')
          (chunksOf10_ne_nil xs c' hc') entries hfe).1)
      (fun c' hc' entries hfe =>
        (profChunkFetch_spec respFor c' (chunksOf10_size_le xs c' hc')
          (chunksOf10_ne_nil xs c' hc') entries hfe).2.1)
      (by rw [chunksOf10_flatten xs]; exact hnd) hc hcode]
    cases hf : profChunkFetch respFor c with
    | none =>
        have hokf : respOk (respFor (ACTRealtimeService.jsSortStrings c)).status = false := by
          rcases Bool.eq_false_or_eq_true
              (respOk (respFor (ACTRealtimeService.jsSortStrings c)).status) with h | h
          · exfalso
            unfold profChunkFetch at hf
            cases hstops : (respFor (ACTRealtimeService.jsSortStrings c)).stops with
            | none =>
                unfold ACTRealtimeService.fetchBusStopProfilesRaw at hf
                rw [if_neg hsne, if_neg (by rw [hslen]; omega),
                  if_neg (by simp [h]), hstops] at hf
                simp at hf
            | some stops =>
                by_cases hsnil : stops = []
                · subst hsnil
                  unfold ACTRealtimeService.fetchBusStopProfilesRaw at hf
                  rw [if_neg hsne, if_neg (by rw [hslen]; omega),
                    if_neg (by simp [h]), hstops] at hf
                  simp at hf
                · rw [fetchBusStopProfilesRaw_ok (ACTRealtimeService.jsSortStrings c)
                    (respFor (ACTRealtimeService.jsSortStrings c)) hsne
                    (by rw [hslen]; exact hle10) h stops hstops hsnil] at hf
                  cases hf
          · exact h
        simp only [Option.none_bind]
        rw [if_neg (by simp [hokf])]
    | some entries =>
        have hspec := profChunkFetch_spec respFor c hle10 hcne entries hf
        simp only [Option.some_bind]
        by_cases hok : respOk (respFor (ACTRealtimeService.jsSortStrings c)).status = true
        · rw [hspec.2.2.1 hok code hcode, if_pos hok]
        · have hempty := hspec.2.2.2 (Bool.eq_false_iff.mpr hok)
          subst hempty
          rw [if_neg hok]
          rfl

/-- Witness for C5 at twelve stop codes split into a chunk of ten and a
chunk of two: the chunk count is 2 = ceil(12/10); with the ten-code
chunk answering 2xx and the two-code chunk answering 500, a code of the
first chunk maps to its own chunk's filtered predictions (profiles: its
own chunk's matching stop), a code of the failed chunk is absent, and a
code outside the input is absent. -/
theorem C5_chunking_and_merge_witness :
    (ACTRealtimeService.chunksOf10
        ["s01","s02","s03","s04","s05","s06","s07","s08","s09","s10","s11","s12"]).length
      = 2 ∧
    assocGet (ACTRealtimeService.fetchBusStopPredictions
        (fun chunk => if chunk.length = 10
          then ⟨200, some [⟨"20250919 22:10", "s03", "1401", JSNum.num 50, "51B",
                  "To Rockridge BART", "20250919 22:17", "t1", "7", 1⟩]⟩
          else ⟨500, none⟩)
        ["s01","s02","s03","s04","s05","s06","s07","s08","s09","s10","s11","s12"]) "s03"
      = some [⟨"20250919 22:10", "s03", "1401", JSNum.num 50, "51B",
          "To Rockridge BART", "20250919 22:17", "t1", "7", 1⟩] ∧
    assocGet (ACTRealtimeService.fetchBusStopPredictions
        (fun chunk => if chunk.length = 10
          then ⟨200, some [⟨"20250919 22:10", "s03", "1401", JSNum.num 50, "51B",
                  "To Rockridge BART", "20250919 22:17", "t1", "7", 1⟩]⟩
          else ⟨500, none⟩)
        ["s01","s02","s03","s04","s05","s06","s07","s08","s09","s10","s11","s12"]) "s11"
      = none ∧
    assocGet (ACTRealtimeService.fetchBusStopPredictions
        (fun chunk => if chunk.length = 10
          then ⟨200, some [⟨"20250919 22:10", "s03", "1401", JSNum.num 50, "51B",
                  "To Rockridge BART", "20250919 22:17", "t1", "7", 1⟩]⟩
          else ⟨500, none⟩)
        ["s01","s02","s03","s04","s05","s06","s07","s08","s09","s10","s11","s12"]) "zzz"
      = none ∧
    assocGet (ACTRealtimeService.fetchBusStopProfiles
        (fun chunk => if chunk.length = 10
          then ⟨200, some [⟨"s03", "Stop Three", "g3", JSNum.num 37, JSNum.num (-122)⟩]⟩
          else ⟨500, none⟩)
        ["s01","s02","s03","s04","s05","s06","s07","s08","s09","s10","s11","s12"]) "s03"
      = some ⟨"s03", "Stop Three", "g3", JSNum.num 37, JSNum.num (-122)⟩ := by
  refine ⟨?_, ?_, ?_, ?_, ?_⟩
  · exact (C5_chunking_and_merge.1
      ["s01","s02","s03","s04","s05","s06","s07","s08","s09","s10","s11","s12"]).1.trans
      (by decide)
  · exact (C5_chunking_and_merge.2.2.1 _ _ (by decide)
      ["s01","s02","s03","s04","s05","s06","s07","s08","s09","s10"] (by decide)
      "s03" (by decide)).trans (by decide)
  · exact (C5_chunking_and_merge.2.2.1 _ _ (by decide)
      ["s11","s12"] (by decide) "s11" (by decide)).trans (by decide)
  · exact C5_chunking_and_merge.2.1 _ _ "zzz" (by decide)
  · exact (C5_chunking_and_merge.2.2.2 _ _ (by decide)
      ["s01","s02","s03","s04","s05","s06","s07","s08","s09","s10"] (by decide)
      "s03" (by decide)).trans (by decide)
